import Mathlib

/-!
Verification of the tool-call ledger, conversation assembler and nested
agent loop of the arki Discord bot.

The TypeScript sources are shallowly embedded: external effects (HTTP
fetches, the chat-completion client, tool executions, JSON parsing) are
passed in as explicit function parameters; the process-wide mutable
`Map` of the `ToolCallsStore` is modelled extensionally as a partial
function from string keys to entries; `async` code is modelled by plain
total functions since every awaited effect is one of the explicit
parameters.
-/

/-- JavaScript `a || b` on strings: the empty string is falsy. -/
def jsOr (a b : String) : String := if a = "" then b else a

/-- JavaScript truthiness for an optional string (`undefined`, `null`
and `""` are falsy): returns the string when truthy. -/
def jsStr (o : Option String) : Option String :=
  match o with
  | some "" => none
  | x => x

/-- Structural substring scan on character lists. -/
def listIncludes (needle : List Char) : List Char → Bool
  | [] => needle.isEmpty
  | c :: rest => needle.isPrefixOf (c :: rest) || listIncludes needle rest

/-- JavaScript `String.prototype.includes`. -/
def strContains (s pat : String) : Bool := listIncludes pat.toList s.toList

/-- JavaScript `String.prototype.startsWith`. -/
def strStartsWith (s p : String) : Bool := p.toList.isPrefixOf s.toList

/-- JavaScript `String.prototype.endsWith`. -/
def strEndsWith (s p : String) : Bool := p.toList.reverse.isPrefixOf s.toList.reverse

/-- JavaScript `String.prototype.substring(0, n)`. -/
def strTake (s : String) (n : Nat) : String := (s.toList.take n).asString

/-- JavaScript `String.prototype.trim` (ASCII whitespace model). -/
def strTrim (s : String) : String :=
  ((s.toList.dropWhile Char.isWhitespace).reverse.dropWhile
    Char.isWhitespace).reverse.asString

/-- JavaScript `String.prototype.toLowerCase` (ASCII model). -/
def strToLower (s : String) : String := (s.toList.map Char.toLower).asString

/-- One requested tool invocation as produced by the model
(`ChatCompletionMessageToolCall`): `name` and `argumentsJson` are the
`function.name` / `function.arguments` fields. -/
structure ToolCall where
  id : String
  type : String
  name : String
  argumentsJson : String
deriving DecidableEq, Repr

/-- One tool result record as built by `AIService.processToolCalls`
(`{tool_call_id, role: "tool", name, content}`; the constant role is
left implicit). -/
structure ToolResultRec where
  tool_call_id : String
  name : String
  content : String
deriving DecidableEq, Repr

/-- The fields of a Discord attachment used by `message-utils.ts`. -/
structure AttachmentS where
  name : String
  size : Nat
  contentType : Option String
  description : Option String
  url : String
  width : Option Nat
  height : Option Nat
deriving DecidableEq, Repr

/-- The fields of a Discord rich embed used by `convertEmbedToText`.
`authorName`/`footerText` being `some` models the author/footer object
being present. -/
structure EmbedS where
  title : Option String
  description : Option String
  url : Option String
  authorName : Option String
  fields : List (String × String)
  footerText : Option String
  imageUrl : Option String
  thumbnailUrl : Option String
  timestamp : Option String
deriving DecidableEq, Repr

/-- A Discord sticker (name and optional description). -/
structure StickerS where
  name : String
  description : Option String
deriving DecidableEq, Repr

/-- One reaction summary entry (emoji name may be null). -/
structure ReactionS where
  emojiName : Option String
  count : Nat
deriving DecidableEq, Repr

/-- A Discord poll (question text, answer texts, optional expiry
rendering). -/
structure PollS where
  question : String
  answers : List String
  expiresAt : Option String
deriving DecidableEq, Repr

/-- A message reference (reply). `resolved = some (author, content)`
models a cache hit for the referenced message. -/
structure RefS where
  messageId : Option String
  resolved : Option (String × String)
deriving DecidableEq, Repr

/-- The fields of a Discord `Message` consumed by the ledger and the
assembler. `createdAtDisplay` is the pre-rendered
`createdAt.toLocaleString()` value. -/
structure MessageS where
  id : String
  createdTimestamp : Nat
  content : String
  authorBot : Bool
  authorUsername : String
  authorDisplayName : Option String
  memberDisplayName : Option String
  attachments : List AttachmentS
  embeds : List EmbedS
  stickers : List StickerS
  poll : Option PollS
  reactions : List ReactionS
  reference : Option RefS
  createdAtDisplay : String
deriving DecidableEq, Repr

/-- `ToolCallData` stored by the `ToolCallsStore` for one bot message. -/
structure ToolCallData where
  messageId : String
  messageContent : String
  timestamp : Nat
  toolCalls : List ToolCall
  toolResults : List ToolResultRec
deriving DecidableEq, Repr

/-- The `ToolCallsStore`'s backing `Map<string, ToolCallData>`,
modelled extensionally. -/
def Ledger : Type := String → Option ToolCallData

/-- `ToolCallsStore.generateMessageKey`: the composite key
`` `${message.id}_${message.createdTimestamp}` ``. -/
def generateMessageKey (m : MessageS) : String :=
  m.id ++ "_" ++ toString m.createdTimestamp

/-- `ToolCallsStore.storeToolCallsForMessage`: unconditional
`Map.set` under the composite key. -/
def storeToolCallsForMessage (L : Ledger) (m : MessageS)
    (toolCalls : List ToolCall) (toolResults : List ToolResultRec) : Ledger :=
  fun k =>
    if k = generateMessageKey m then
      some { messageId := m.id, messageContent := m.content,
             timestamp := m.createdTimestamp,
             toolCalls := toolCalls, toolResults := toolResults }
    else L k

/-- `ToolCallsStore.getToolCallsForMessage`: lookup under the composite
key. -/
def getToolCallsForMessage (L : Ledger) (m : MessageS) : Option ToolCallData :=
  L (generateMessageKey m)

/-- `ToolCallsStore.cleanupOldToolCalls`: an entry is deleted exactly
when its composite key is absent from the recent messages' key set AND
its `messageId` is absent from the recent messages' id set
(`!recentMessageKeys.has(key) && !recentMessageIds.has(data?.messageId || '')`). -/
def cleanupOldToolCalls (L : Ledger) (recentMessages : List MessageS) : Ledger :=
  fun k =>
    match L k with
    | none => none
    | some data =>
      if !(recentMessages.map generateMessageKey).contains k
          && !(recentMessages.map MessageS.id).contains (jsOr data.messageId "") then
        none
      else
        some data

/-- `fetchRecentMessages` (message-utils.ts): on a successful fetch the
newest-first collection is reversed; any error is caught and yields the
empty list. The Discord fetch itself is the explicit `outcome`
parameter. -/
def fetchRecentMessagesResult (outcome : Except Unit (List MessageS)) : List MessageS :=
  match outcome with
  | Except.error _ => []
  | Except.ok ms => ms.reverse

/-- A typed content segment of a multimodal message
(`ChatCompletionContentPart`): text, or an image reference with a
`detail` level. -/
inductive MessageContentPart : Type
  | text (t : String)
  | imageUrl (url : String) (detail : String)
deriving DecidableEq, Repr

/-- One normalized chat message as handed to the chat-completion
client. `text`/`parts` model the string-or-array-or-null `content`
field. -/
structure ChatMsg where
  role : String
  text : Option String := none
  parts : Option (List MessageContentPart) := none
  name : Option String := none
  tool_calls : List ToolCall := []
  tool_call_id : Option String := none
deriving DecidableEq, Repr

/-- `(size / (1024 * 1024)).toFixed(2)`: megabyte rendering with two
decimals, rounding half up (deterministic stand-in for the float
formatting; no verified claim depends on these digits). -/
def toFixed2MB (size : Nat) : String :=
  let n100 := (size * 100 + 524288) / 1048576
  toString (n100 / 100) ++ "." ++
    (if n100 % 100 < 10 then "0" else "") ++ toString (n100 % 100)

/-- The MIME sniffing inside `convertImageToBase64`: substring checks on
the lowercased URL, defaulting to PNG. -/
def mimeFromUrl (url : String) : String :=
  let urlLower := strToLower url
  if strContains urlLower ".jpg" || strContains urlLower ".jpeg" then "image/jpeg"
  else if strContains urlLower ".gif" then "image/gif"
  else if strContains urlLower ".webp" then "image/webp"
  else "image/png"

/-- `convertImageToBase64`: on a successful download (`fetch url = some
payload`, the payload already base64-encoded) produce the data URL with
the sniffed MIME type; any failure is caught and falls back to the raw
URL. The URL-keyed cache is omitted: with a pure `fetch` parameter a
cache hit returns the same data URL as recomputation. -/
def convertImageToBase64 (fetch : String → Option String) (url : String) : String :=
  match fetch url with
  | none => url
  | some base64 => "data:" ++ mimeFromUrl url ++ ";base64," ++ base64

/-- The generic descriptive-text fallback of
`convertAttachmentToContentPart` for non-image, non-audio attachments. -/
def otherAttachmentText (att : AttachmentS) : String :=
  let base := "[Attachment: " ++ att.name ++ " (" ++ toFixed2MB att.size ++ "MB)"
  let base := base ++
    (match jsStr att.contentType with
     | some ct =>
        if strStartsWith ct "video/" then
          " - Video" ++
            (match att.height, att.width with
             | some h, some w =>
                if h ≠ 0 ∧ w ≠ 0 then
                  " (" ++ toString w ++ "x" ++ toString h ++ ")"
                else ""
             | _, _ => "")
        else if strContains ct "pdf" then " - PDF Document"
        else if strContains ct "text/" then " - Text File"
        else " - File (" ++ ct ++ ")"
     | none => "")
  let base := base ++
    (match jsStr att.description with
     | some d => " - Description: \"" ++ d ++ "\""
     | none => "")
  base ++ " - URL: " ++ att.url ++ "]"

/-- `convertAttachmentToContentPart`: images become native image parts
(data URL from `convertImageToBase64`, which never throws, so the
surrounding catch is unreachable); audio and all other types degrade to
descriptive text. -/
def convertAttachmentToContentPart (fetch : String → Option String)
    (att : AttachmentS) : MessageContentPart :=
  match jsStr att.contentType with
  | some ct =>
    if strStartsWith ct "image/" then
      MessageContentPart.imageUrl (convertImageToBase64 fetch att.url) "auto"
    else if strStartsWith ct "audio/" then
      MessageContentPart.text ("[Audio File: " ++ att.name ++ " (" ++
        toFixed2MB att.size ++ "MB) - " ++ ct ++ " - URL: " ++ att.url ++ "]")
    else
      MessageContentPart.text (otherAttachmentText att)
  | none => MessageContentPart.text (otherAttachmentText att)

/-- `convertEmbedToText`. -/
def convertEmbedToText (e : EmbedS) : String :=
  let t := "[Embed:"
  let t := t ++ (match jsStr e.title with
    | some s => " Title: \"" ++ s ++ "\"" | none => "")
  let t := t ++ (match jsStr e.description with
    | some s => " Description: \"" ++ s ++ "\"" | none => "")
  let t := t ++ (match jsStr e.url with
    | some s => " URL: " ++ s | none => "")
  let t := t ++ (match e.authorName with
    | some s => " Author: \"" ++ s ++ "\"" | none => "")
  let t := t ++
    (if e.fields.length > 0 then
      " Fields: " ++ String.intercalate ", "
        (e.fields.map (fun f => "\"" ++ f.1 ++ ": " ++ f.2 ++ "\""))
     else "")
  let t := t ++ (match e.footerText with
    | some s => " Footer: \"" ++ s ++ "\"" | none => "")
  let t := t ++ (match jsStr e.imageUrl with
    | some s => " Image: " ++ s | none => "")
  let t := t ++ (match jsStr e.thumbnailUrl with
    | some s => " Thumbnail: " ++ s | none => "")
  let t := t ++ (match jsStr e.timestamp with
    | some s => " Timestamp: " ++ s | none => "")
  t ++ "]"

/-- `convertStickerToText`. -/
def convertStickerToText (s : StickerS) : String :=
  "[Sticker: \"" ++ s.name ++ "\" - " ++
    (jsOr (s.description.getD "") "No description") ++ "]"

/-- `convertReactionsToText`. -/
def convertReactionsToText (m : MessageS) : String :=
  if m.reactions.length = 0 then ""
  else
    "[Reactions: " ++ String.intercalate ", "
      (m.reactions.map (fun r =>
        jsOr (r.emojiName.getD "") "Unknown" ++ " (" ++ toString r.count ++ ")")) ++ "]"

/-- `convertMessageReferenceToText`: summarizes the replied-to message,
truncating cached content at 100 characters. -/
def convertMessageReferenceToText (m : MessageS) : String :=
  match m.reference with
  | none => ""
  | some ref =>
    "[Reply to: " ++
      (match ref.messageId with
       | none => ""
       | some mid =>
          match ref.resolved with
          | some (authorName, content) =>
            let content := jsOr content "[No text content]"
            let truncated :=
              if content.length > 100 then strTake content 100 ++ "..." else content
            authorName ++ ": \"" ++ truncated ++ "\""
          | none => "Message ID " ++ mid) ++ "]"

/-- `convertPollToText`. -/
def convertPollToText (p : PollS) : String :=
  "[Poll: \"" ++ p.question ++ "\"" ++
    (if p.answers.length > 0 then
      " Options: " ++ String.intercalate ", " (p.answers.map (fun a => "\"" ++ a ++ "\""))
     else "") ++
    (match jsStr p.expiresAt with
     | some e => " Expires: " ++ e
     | none => "") ++ "]"

/-- The speaker label:
`member?.displayName || author.displayName || author.username`. -/
def messageUsername (m : MessageS) : String :=
  jsOr (m.memberDisplayName.getD "")
    (jsOr (m.authorDisplayName.getD "") m.authorUsername)

/-- `username.replace(/[^a-zA-Z0-9_-]/g, '_').substring(0, 64)`. -/
def cleanUserName (u : String) : String :=
  ((u.toList.map (fun c =>
    if c.isAlphanum || c = '_' || c = '-' then c else '_')).take 64).asString

/-- The ordered content segments of a non-bot (user) message: label,
reply summary, raw text, attachments, embeds, stickers, poll, reactions,
timestamp. -/
def userContentParts (fetch : String → Option String) (m : MessageS) :
    List MessageContentPart :=
  [MessageContentPart.text (messageUsername m ++ ":")]
  ++ (let r := convertMessageReferenceToText m
      if r = "" then [] else [MessageContentPart.text r])
  ++ (if m.content = "" then [] else [MessageContentPart.text m.content])
  ++ m.attachments.map (convertAttachmentToContentPart fetch)
  ++ m.embeds.map (fun e => MessageContentPart.text (convertEmbedToText e))
  ++ m.stickers.map (fun s => MessageContentPart.text (convertStickerToText s))
  ++ (match m.poll with
      | some p =>
        let t := convertPollToText p
        if t = "" then [] else [MessageContentPart.text t]
      | none => [])
  ++ (let t := convertReactionsToText m
      if t = "" then [] else [MessageContentPart.text t])
  ++ [MessageContentPart.text ("[Sent: " ++ m.createdAtDisplay ++ "]")]

/-- The `user` message built for a non-bot message (`'No content'` when
the part list is empty, which cannot happen since the label and
timestamp segments are unconditional). -/
def userChatMsg (fetch : String → Option String) (m : MessageS) : ChatMsg :=
  let ps := userContentParts fetch m
  if ps.length > 0 then
    { role := "user", parts := some ps, name := some (cleanUserName (messageUsername m)) }
  else
    { role := "user", text := some "No content",
      name := some (cleanUserName (messageUsername m)) }

/-- A bot attachment: native image part when the content type starts
with `image/`, otherwise a short `[Bot shared: ...]` text. -/
def botAttachmentPart (fetch : String → Option String)
    (att : AttachmentS) : MessageContentPart :=
  if strStartsWith (att.contentType.getD "") "image/" then
    MessageContentPart.imageUrl (convertImageToBase64 fetch att.url) "auto"
  else
    MessageContentPart.text ("[Bot shared: " ++ att.name ++ "]")

/-- The content segments of a bot message: raw text, attachments,
simplified embeds. -/
def botContentParts (fetch : String → Option String) (m : MessageS) :
    List MessageContentPart :=
  (if m.content = "" then [] else [MessageContentPart.text m.content])
  ++ m.attachments.map (botAttachmentPart fetch)
  ++ m.embeds.map (fun e =>
      MessageContentPart.text ("[Bot embed: " ++
        jsOr (e.title.getD "") (jsOr (e.description.getD "") "Embedded content") ++ "]"))

/-- Rendering one segment for the joined text approximation of
multimodal assistant content. -/
def partToText (p : MessageContentPart) : String :=
  match p with
  | MessageContentPart.text t => t
  | MessageContentPart.imageUrl url _ => "[Image: " ++ strTake url 50 ++ "...]"

/-- Collapse assistant content parts to the string-or-null content the
downstream model expects: null when empty, the bare text when the single
part is text, otherwise a space-joined textual approximation. -/
def collapseAssistant (parts : List MessageContentPart) : Option String :=
  match parts with
  | [] => none
  | [MessageContentPart.text t] => some t
  | ps => some (String.intercalate " " (ps.map partToText))

/-- `isBot && !content && !attachments.size && !embeds.length &&
!stickers.size`: the empty-bot-message skip. -/
def skipEmptyBot (m : MessageS) : Bool :=
  m.content = "" && m.attachments.length = 0 && m.embeds.length = 0
    && m.stickers.length = 0

/-- The content string under which a bot message survives into the
assembled history (`none` both for the empty-skip and for falsy
collapsed content). -/
def botSurvivingContent (fetch : String → Option String) (m : MessageS) :
    Option String :=
  if skipEmptyBot m then none
  else
    match collapseAssistant (botContentParts fetch m) with
    | none => none
    | some c => if c = "" then none else some c

/-- The spliced `tool` messages: results paired with requests by index,
emitted only when both the result and the same-index request exist, the
`tool_call_id` taken from the request. -/
def pairedToolMsgs (entry : ToolCallData) : List ChatMsg :=
  (List.range entry.toolResults.length).filterMap (fun i =>
    match entry.toolResults[i]?, entry.toolCalls[i]? with
    | some r, some tc =>
      some { role := "tool", text := some r.content, tool_call_id := some tc.id }
    | _, _ => none)

/-- The messages contributed by one raw message: a user message, or an
assistant message optionally preceded by its ledger-reconstructed
tool-request and tool-result messages. -/
def messageBlock (L : Ledger) (fetch : String → Option String)
    (m : MessageS) : List ChatMsg :=
  if m.authorBot then
    match botSurvivingContent fetch m with
    | none => []
    | some c =>
      let assistantMsg : ChatMsg := { role := "assistant", text := some c }
      match L (generateMessageKey m) with
      | some entry =>
        if entry.toolCalls.length > 0 then
          [{ role := "assistant", text := none, tool_calls := entry.toolCalls }]
            ++ pairedToolMsgs entry ++ [assistantMsg]
        else [assistantMsg]
      | none => [assistantMsg]
  else
    [userChatMsg fetch m]

/-- `convertToAIMessages`: process the window oldest-first, then append
the trimmed current query as a final `user` message when non-empty. The
source's push/pop splicing is block-local, so the loop is a fold of
per-message blocks. -/
def convertToAIMessages (L : Ledger) (fetch : String → Option String)
    (messages : List MessageS) (query : String) : List ChatMsg :=
  (messages.foldl (fun acc m => acc ++ messageBlock L fetch m) [])
  ++ (if strTrim query = "" then [] else [{ role := "user", text := some (strTrim query) }])

/-- The concrete bot message of the C2 counterexample. -/
def cexC2Message : MessageS :=
  { id := "b1", createdTimestamp := 5, content := "done", authorBot := true,
    authorUsername := "arki", authorDisplayName := none, memberDisplayName := none,
    attachments := [], embeds := [], stickers := [], poll := none,
    reactions := [], reference := none, createdAtDisplay := "t" }

/-- The concrete ledger entry of the C2 counterexample: one recorded
request but two recorded results. -/
def cexC2Entry : ToolCallData :=
  { messageId := "b1", messageContent := "done", timestamp := 5,
    toolCalls := [{ id := "c1", type := "function", name := "get_date_time",
                    argumentsJson := "\x7b\x7d" }],
    toolResults := [{ tool_call_id := "c1", name := "get_date_time", content := "res1" },
                    { tool_call_id := "c2", name := "get_date_time", content := "res2" }] }

/-- The concrete ledger of the C2 counterexample. -/
def cexC2Ledger : Ledger :=
  storeToolCallsForMessage (fun _ => none) cexC2Message
    cexC2Entry.toolCalls cexC2Entry.toolResults

/-- The well-formed entry of the C2 witness: one request, one result. -/
def witC2Entry : ToolCallData :=
  { messageId := "b1", messageContent := "done", timestamp := 5,
    toolCalls := [{ id := "c1", type := "function", name := "get_date_time",
                    argumentsJson := "\x7b\x7d" }],
    toolResults := [{ tool_call_id := "c1", name := "get_date_time",
                      content := "res1" }] }

/-- The concrete ledger of the C2 witness. -/
def witC2Ledger : Ledger :=
  storeToolCallsForMessage (fun _ => none) cexC2Message
    witC2Entry.toolCalls witC2Entry.toolResults

/-- A failure of the chat-completion HTTP call as seen by
`AIService.generateResponse`'s catch block: HTTP status (absent for
non-HTTP failures), the error message, and the optional
`remaining_credits` metadata used by the 402 branch. -/
structure RawError where
  status : Option Nat
  msg : String
  remainingCredits : Option String
deriving DecidableEq, Repr

/-- The error categorization of `AIService.generateResponse`: 402, 429,
401, >= 500, then the generic fallback, each thrown as a fresh message. -/
def categorizeError (maxTokens : Nat) (e : RawError) : String :=
  if e.status = some 402 then
    "AI service credit limit exceeded: Insufficient credits. You requested up to "
      ++ toString maxTokens ++ " tokens but can only afford "
      ++ jsOr (e.remainingCredits.getD "") "unknown"
      ++ " tokens. Please add more credits at https://openrouter.ai/settings/credits"
  else if e.status = some 429 then
    "AI service rate limit exceeded. Please try again later."
  else if e.status = some 401 then
    "AI service authentication failed. Please check your API key."
  else if (match e.status with | some s => decide (500 ≤ s) | none => false) then
    "AI service is temporarily unavailable. Please try again later."
  else
    "AI service error: " ++ jsOr e.msg "Unknown error"

/-- The chat-completion response consumed by the agent loop: the
assistant text (possibly null) and the requested tool invocations. -/
structure AIResponse where
  content : Option String
  tool_calls : List ToolCall
deriving DecidableEq, Repr

/-- The effect parameters of one nested-agent run: the raw
chat-completion client, `JSON.parse` on argument strings (the parsed
value kept opaque as a string token), the behavior of the registered
OpenProject tools (already stringified, an `error` being a thrown
exception's message), and the instance's system prompt. -/
structure AgentEnv where
  client : List ChatMsg → Except RawError AIResponse
  parseJson : String → Except String String
  execTool : String → String → Except String String
  systemPrompt : String

/-- `generateResponse` prepends the system message unless the first
message already has the system role. -/
def prependSystem (sys : String) (msgs : List ChatMsg) : List ChatMsg :=
  match msgs with
  | m :: _ => if m.role = "system" then msgs else
      { role := "system", text := some sys } :: msgs
  | [] => [{ role := "system", text := some sys }]

/-- `Map.set` on the key list: an existing key keeps its position, a new
key is appended. -/
def registerToolName (names : List String) (n : String) : List String :=
  if names.contains n then names else names ++ [n]

/-- The tool names registered by the `OpenProjectToolsRegistry`
constructor, in registration order. -/
def openProjectToolNames : List String :=
  registerToolName (registerToolName (registerToolName (registerToolName
    (registerToolName (registerToolName [] "list_projects")
      "create_work_package") "list_work_packages") "assign_user")
    "search_users") "get_metadata"

/-- The tool names registered by the outer `ToolsRegistry` constructor. -/
def outerToolNames : List String :=
  registerToolName (registerToolName [] "get_date_time") "openproject_agent"

/-- `OpenProjectToolsRegistry.executeTool`: a missing name throws
`OpenProject tool not found`. -/
def opExecuteTool (env : AgentEnv) (name args : String) : Except String String :=
  if openProjectToolNames.contains name then env.execTool name args
  else Except.error ("OpenProject tool not found: " ++ name)

/-- One requested invocation inside the nested loop's try/catch: a
`JSON.parse` failure, a registry miss or a tool throw all become an
error-text result message carrying the invocation's id. -/
def runToolCall (env : AgentEnv) (tc : ToolCall) : ChatMsg :=
  match env.parseJson tc.argumentsJson with
  | Except.error e =>
    { role := "tool",
      text := some ("Error: Failed to execute " ++ tc.name ++ ": " ++ e),
      tool_call_id := some tc.id }
  | Except.ok args =>
    match opExecuteTool env tc.name args with
    | Except.error e =>
      { role := "tool",
        text := some ("Error: Failed to execute " ++ tc.name ++ ": " ++ e),
        tool_call_id := some tc.id }
    | Except.ok s =>
      { role := "tool", text := some s, tool_call_id := some tc.id }

/-- The per-turn tool execution: non-`function` invocations are skipped,
the rest run in issue order. -/
def execToolCalls (env : AgentEnv) (calls : List ToolCall) : List ChatMsg :=
  (calls.filter (fun tc => tc.type == "function")).map (runToolCall env)

/-- The task-wording keyword check of the iteration-extension
heuristic. -/
def taskWantsList (task : String) : Bool :=
  strContains (strToLower task) "list" || strContains (strToLower task) "issue"
    || strContains (strToLower task) "work package"

/-- The per-turn `foundUserIdButNeedsList` detection: a `search_users`
invocation whose result contains `User ID:` while the task wording asks
for a listing. -/
def foundUserIdCheck (task : String) (calls : List ToolCall)
    (results : List ChatMsg) : Bool :=
  calls.any (fun tc =>
    tc.type == "function" && tc.name == "search_users" &&
      (match results.find? (fun r => r.tool_call_id == some tc.id) with
       | some r => strContains (r.text.getD "") "User ID:" && taskWantsList task
       | none => false))

/-- The forced-summary user message text (identical in both push
sites). -/
def summaryPrompt : String :=
  "Please provide a comprehensive final summary of your OpenProject management results. Include ALL the detailed information you found - work package IDs, titles, statuses, users, dates, links, etc. Do not just say the task was completed, show the actual data and results you discovered."

/-- The seed user message of a nested-agent run. -/
def initialTaskContent (task : String) (context : Option String) : String :=
  "Please help me with this OpenProject task: " ++ task ++
    (match jsStr context with
     | some c => "\n\nContext: " ++ c
     | none => "")

/-- The loop variables of `openProjectAgentTool.execute`, plus ghost
logs (`callLog`: the exact message list of each client call; `toolLog`:
per tool-executing iteration its counter value and result messages;
`summaryLog`: the counter values at which the forced-summary message was
pushed). The logs never influence control flow. -/
structure LoopState where
  messages : List ChatMsg
  iterationCount : Nat
  finalResponse : String
  foundUserIdButNeedsList : Bool
  callLog : List (List ChatMsg)
  toolLog : List (Nat × List ChatMsg)
  summaryLog : List Nat

/-- The `while` guard:
`iterationCount < max_iterations || (foundUserIdButNeedsList &&
iterationCount < max_iterations + 2)`. -/
def loopCond (maxIter : Nat) (s : LoopState) : Bool :=
  s.iterationCount < maxIter
    || (s.foundUserIdButNeedsList && s.iterationCount < maxIter + 2)

/-- The result of one nested-agent run: the returned text, the final
counter, the client failure that aborted the run (if any), and the ghost
logs. -/
structure AgentOutcome where
  text : String
  iterations : Nat
  abortErr : Option RawError
  callLog : List (List ChatMsg)
  toolLog : List (Nat × List ChatMsg)
  summaryLog : List Nat
  finalMessages : List ChatMsg

/-- The returned text: final response wrapped with the provenance
footer (tool count from the registry, iteration count). -/
def agentResultText (finalResponse : String) (iterations : Nat) : String :=
  "**OpenProject Agent Results**\n\n" ++ finalResponse ++
    "\n\n---\n*Task completed using " ++ toString openProjectToolNames.length ++
    " specialized OpenProject tools in " ++ toString iterations ++ " iterations*"

/-- The outcome when a client failure escapes to the outer catch, which
returns the categorized message (`maxTokens` defaulted to 8192, the
nested `AIService` being constructed without one). -/
def abortOutcome (s : LoopState) (e : RawError) : AgentOutcome :=
  { text := "OpenProject Agent encountered an error: " ++ categorizeError 8192 e,
    iterations := s.iterationCount, abortErr := some e, callLog := s.callLog,
    toolLog := s.toolLog, summaryLog := s.summaryLog, finalMessages := s.messages }

/-- The code after the `while` loop: when no final response was produced
and the counter reached the budget, one additional completion request is
made (with no tool execution) and its text is returned. -/
def afterLoop (env : AgentEnv) (maxIter : Nat) (s : LoopState) : AgentOutcome :=
  if s.finalResponse = "" ∧ maxIter ≤ s.iterationCount then
    match env.client (prependSystem env.systemPrompt s.messages) with
    | Except.error e => abortOutcome
        { s with callLog :=
            s.callLog ++ [prependSystem env.systemPrompt s.messages] } e
    | Except.ok resp =>
      { text := agentResultText
          (resp.content.getD "OpenProject task completed after maximum iterations.")
          s.iterationCount,
        iterations := s.iterationCount, abortErr := none,
        callLog := s.callLog ++ [prependSystem env.systemPrompt s.messages],
        toolLog := s.toolLog,
        summaryLog := s.summaryLog, finalMessages := s.messages }
  else
    { text := agentResultText s.finalResponse s.iterationCount,
      iterations := s.iterationCount, abortErr := none, callLog := s.callLog,
      toolLog := s.toolLog, summaryLog := s.summaryLog, finalMessages := s.messages }

/-- The successor state after a tool-executing round: counter
incremented, assistant tool-request message and result messages
appended, heuristic flag updated, and the forced-summary user message
pushed when the (updated) counter equals the budget with the flag off,
or equals the budget plus two. -/
def stepSuccState (env : AgentEnv) (task : String) (maxIter : Nat)
    (s : LoopState) (resp : AIResponse) : LoopState :=
  let sent := prependSystem env.systemPrompt s.messages
  let assistantMsg : ChatMsg :=
    { role := "assistant", text := resp.content, tool_calls := resp.tool_calls }
  let results := execToolCalls env resp.tool_calls
  let found' := s.foundUserIdButNeedsList
    || foundUserIdCheck task resp.tool_calls results
  let pushSummary := (s.iterationCount + 1 == maxIter && !found')
    || (s.iterationCount + 1 == maxIter + 2)
  { messages := s.messages ++ [assistantMsg] ++ results
      ++ (if pushSummary then [{ role := "user", text := some summaryPrompt }]
          else []),
    iterationCount := s.iterationCount + 1,
    finalResponse := s.finalResponse,
    foundUserIdButNeedsList := found',
    callLog := s.callLog ++ [sent],
    toolLog := s.toolLog ++ [(s.iterationCount + 1, results)],
    summaryLog := s.summaryLog
      ++ (if pushSummary then [s.iterationCount + 1] else []) }

/-- One round of the `while` body: increment the counter, call the
client (a failure escapes to the outer catch), then either execute the
requested tools and continue (`inr`), or record the final text, leave
the loop and run the after-loop code (`inl`). -/
def loopStep (env : AgentEnv) (task : String) (maxIter : Nat)
    (s : LoopState) : Sum AgentOutcome LoopState :=
  let sent := prependSystem env.systemPrompt s.messages
  let s1 : LoopState :=
    { s with
      iterationCount := s.iterationCount + 1,
      callLog := s.callLog ++ [sent] }
  match env.client sent with
  | Except.error e => Sum.inl (abortOutcome s1 e)
  | Except.ok resp =>
    if resp.tool_calls.length > 0 then
      Sum.inr (stepSuccState env task maxIter s resp)
    else
      Sum.inl (afterLoop env maxIter
        { s1 with finalResponse :=
            (resp.content.getD
              "OpenProject task completed with no specific results.") })

/-- The `while` loop of `openProjectAgentTool.execute`. The fuel starts
at `maxIter + 2`; the guard forces `iterationCount < maxIter + 2` and
the counter increments once per round, so the fuel never runs out before
the guard fails (`loopGo_fuel_irrelevant`), making this exactly the
source's unbounded `while`. -/
def loopGo (env : AgentEnv) (task : String) (maxIter : Nat) :
    Nat → LoopState → AgentOutcome
  | 0, s => afterLoop env maxIter s
  | fuel + 1, s =>
    if loopCond maxIter s then
      match loopStep env task maxIter s with
      | Sum.inl out => out
      | Sum.inr s' => loopGo env task maxIter fuel s'
    else afterLoop env maxIter s

/-- The initial loop state: the seed user message, zero counter, empty
final response, heuristic flag off. -/
def initialLoopState (task : String) (context : Option String) : LoopState :=
  { messages := [{ role := "user", text := some (initialTaskContent task context) }],
    iterationCount := 0, finalResponse := "", foundUserIdButNeedsList := false,
    callLog := [], toolLog := [], summaryLog := [] }

/-- One full nested-agent run. -/
def openProjectAgentRun (env : AgentEnv) (task : String)
    (context : Option String) (maxIter : Nat) : AgentOutcome :=
  loopGo env task maxIter (maxIter + 2) (initialLoopState task context)

/-- `openProjectAgentTool.execute`: the string the nested-agent tool
returns (normal text or the caught-error text). -/
def openProjectAgentExecute (env : AgentEnv) (task : String)
    (context : Option String) (maxIter : Nat) : String :=
  (openProjectAgentRun env task context maxIter).text

/-- The effect parameters of the outer pipeline: argument parsing, the
date-time tool behavior, the extraction of
`{task, context, max_iterations = 5}` from parsed agent arguments, and
the nested agent's own environment. -/
structure OuterEnv where
  parseJson : String → Except String String
  dateTimeBehavior : String → Except String String
  agentArgs : String → String × Option String × Nat
  nestedEnv : AgentEnv

/-- The outer `ToolsRegistry.executeTool`: the date-time tool, the
nested-agent tool (whose execute never throws), or a
`Tool not found` throw. -/
def outerExecuteTool (oenv : OuterEnv) (name args : String) : Except String String :=
  if name = "get_date_time" then oenv.dateTimeBehavior args
  else if name = "openproject_agent" then
    Except.ok (openProjectAgentExecute oenv.nestedEnv (oenv.agentArgs args).1
      (oenv.agentArgs args).2.1 (oenv.agentArgs args).2.2)
  else Except.error ("Tool not found: " ++ name)

/-- `AIService.processToolCalls` (outer loop): parse failures and tool
throws become the short error text; non-`function` calls are skipped. -/
def processToolCalls (oenv : OuterEnv) (calls : List ToolCall) : List ToolResultRec :=
  (calls.filter (fun c => c.type == "function")).map (fun c =>
    match oenv.parseJson c.argumentsJson with
    | Except.error _ =>
      { tool_call_id := c.id, name := c.name,
        content := "Error: Failed to execute tool " ++ c.name }
    | Except.ok args =>
      match outerExecuteTool oenv c.name args with
      | Except.error _ =>
        { tool_call_id := c.id, name := c.name,
          content := "Error: Failed to execute tool " ++ c.name }
      | Except.ok s => { tool_call_id := c.id, name := c.name, content := s })

/-- `sendResponse`: the ledger write after delivery, performed only when
a message was sent and the response carried tool calls and results. -/
def sendResponseStore (L : Ledger) (sent : Option MessageS)
    (toolCalls : Option (List ToolCall))
    (toolResults : Option (List ToolResultRec)) : Ledger :=
  match sent, toolCalls, toolResults with
  | some sm, some tcs, some trs => storeToolCallsForMessage L sm tcs trs
  | _, _, _ => L

/-- The concrete environment of the C3 witness: a client that always
requests one `list_projects` invocation. -/
def witC3Env : AgentEnv :=
  { client := fun _ => Except.ok
      { content := some "done",
        tool_calls := [{ id := "c1", type := "function", name := "list_projects",
                         argumentsJson := "\x7b\x7d" }] },
    parseJson := fun s => Except.ok s,
    execTool := fun _ _ => Except.ok "projects",
    systemPrompt := "sys" }

/-- The concrete environment of the C8 witness: the client always fails
with HTTP 429. -/
def witC8Env : AgentEnv :=
  { client := fun _ => Except.error
      { status := some 429, msg := "rate", remainingCredits := none },
    parseJson := fun s => Except.ok s,
    execTool := fun _ _ => Except.ok "r",
    systemPrompt := "sys" }

/-- The concrete environment of the C4 counterexample: the client always
requests `search_users` and the tool result carries a user id. -/
def cexC4Env : AgentEnv :=
  { client := fun _ => Except.ok
      { content := some "done",
        tool_calls := [{ id := "c1", type := "function", name := "search_users",
                         argumentsJson := "\x7b\x7d" }] },
    parseJson := fun s => Except.ok s,
    execTool := fun _ _ => Except.ok "Found User ID: 8 (raj sharma)",
    systemPrompt := "sys" }

/-- The concrete environment of the C4 witness. -/
def witC4Env : AgentEnv :=
  { client := fun _ => Except.ok
      { content := some "done",
        tool_calls := [{ id := "c1", type := "function", name := "get_metadata",
                         argumentsJson := "\x7b\x7d" }] },
    parseJson := fun s => Except.ok s,
    execTool := fun _ _ => Except.ok "metadata",
    systemPrompt := "sys" }

/-- `List.contains` agrees with membership (lawful `BEq`). -/
theorem list_contains_true_iff {α : Type} [BEq α] [LawfulBEq α]
    {l : List α} {a : α} : l.contains a = true ↔ a ∈ l :=
  ⟨List.mem_of_elem_eq_true, List.elem_eq_true_of_mem⟩

/-- `List.contains` is false exactly on non-members (lawful `BEq`). -/
theorem list_contains_false_iff {α : Type} [BEq α] [LawfulBEq α]
    {l : List α} {a : α} : l.contains a = false ↔ a ∉ l := by
  rw [← list_contains_true_iff (l := l) (a := a)]
  cases l.contains a <;> simp

/-- `jsOr s ""` is `s` in every case. -/
theorem jsOr_empty_right (s : String) : jsOr s "" = s := by
  unfold jsOr
  split <;> simp_all

/-- C1: `cleanupOldToolCalls` keeps every entry whose message identity is
in the retained window's identity set, even when its composite key is not
in the window's key set; an entry is removed exactly when both its
composite key and its message identity are absent from the window. -/
theorem cleanup_preserves_identity_matches (L : Ledger) (recent : List MessageS)
    (k : String) (d : ToolCallData) (hk : L k = some d)
    (hid : d.messageId ∈ recent.map MessageS.id) :
    cleanupOldToolCalls L recent k = some d ∧
    (∀ k' d', L k' = some d' →
      (cleanupOldToolCalls L recent k' = none ↔
        k' ∉ recent.map generateMessageKey ∧ d'.messageId ∉ recent.map MessageS.id)) := by
  constructor
  · simp only [cleanupOldToolCalls, hk, jsOr_empty_right]
    rw [list_contains_true_iff.mpr hid]
    simp
  · intro k' d' hk'
    simp only [cleanupOldToolCalls, hk', jsOr_empty_right]
    cases h1 : (recent.map generateMessageKey).contains k' <;>
      cases h2 : (recent.map MessageS.id).contains d'.messageId
    · exact iff_of_true rfl
        ⟨list_contains_false_iff.mp h1, list_contains_false_iff.mp h2⟩
    · exact iff_of_false (by simp)
        (fun h => absurd (list_contains_true_iff.mp h2) h.2)
    · exact iff_of_false (by simp)
        (fun h => absurd (list_contains_true_iff.mp h1) h.1)
    · exact iff_of_false (by simp)
        (fun h => absurd (list_contains_true_iff.mp h1) h.1)

/-- Witness for C1 at a concrete ledger and window. -/
theorem cleanup_preserves_identity_matches_witness :
    cleanupOldToolCalls
      (storeToolCallsForMessage (fun _ => none)
        { id := "m1", createdTimestamp := 7, content := "hi", authorBot := true,
          authorUsername := "arki", authorDisplayName := none, memberDisplayName := none,
          attachments := [], embeds := [], stickers := [], poll := none,
          reactions := [], reference := none, createdAtDisplay := "t" } [] [])
      [{ id := "m1", createdTimestamp := 9, content := "hi", authorBot := true,
         authorUsername := "arki", authorDisplayName := none, memberDisplayName := none,
         attachments := [], embeds := [], stickers := [], poll := none,
         reactions := [], reference := none, createdAtDisplay := "t" }]
      "m1_7"
      = some { messageId := "m1", messageContent := "hi", timestamp := 7,
               toolCalls := [], toolResults := [] } := by
  exact (cleanup_preserves_identity_matches _ _ _ _ (by decide) (by decide)).1

/-- C7: storing an entry and immediately reading it back with the same
message returns exactly the stored entry; the write succeeds for every
prior ledger state, overwriting whatever was previously stored under the
same composite key, and leaves every other key untouched. -/
theorem store_get_roundtrip (L : Ledger) (m : MessageS)
    (tcs : List ToolCall) (trs : List ToolResultRec) :
    getToolCallsForMessage (storeToolCallsForMessage L m tcs trs) m =
      some { messageId := m.id, messageContent := m.content,
             timestamp := m.createdTimestamp, toolCalls := tcs, toolResults := trs } ∧
    (∀ k, k ≠ generateMessageKey m →
      storeToolCallsForMessage L m tcs trs k = L k) := by
  constructor
  · unfold getToolCallsForMessage storeToolCallsForMessage
    simp
  · intro k hk
    unfold storeToolCallsForMessage
    simp [hk]

/-- Witness for C7 at a concrete message over a nonempty prior ledger. -/
theorem store_get_roundtrip_witness :
    getToolCallsForMessage
      (storeToolCallsForMessage
        (fun k => if k = "m2_3" then
            some { messageId := "m2", messageContent := "old", timestamp := 3,
                   toolCalls := [], toolResults := [] }
          else none)
        { id := "m2", createdTimestamp := 3, content := "new", authorBot := true,
          authorUsername := "arki", authorDisplayName := none, memberDisplayName := none,
          attachments := [], embeds := [], stickers := [], poll := none,
          reactions := [], reference := none, createdAtDisplay := "t" }
        [{ id := "c1", type := "function", name := "get_date_time", argumentsJson := "\x7b\x7d" }]
        [{ tool_call_id := "c1", name := "get_date_time", content := "now" }])
      { id := "m2", createdTimestamp := 3, content := "new", authorBot := true,
        authorUsername := "arki", authorDisplayName := none, memberDisplayName := none,
        attachments := [], embeds := [], stickers := [], poll := none,
        reactions := [], reference := none, createdAtDisplay := "t" }
      = some { messageId := "m2", messageContent := "new", timestamp := 3,
               toolCalls := [{ id := "c1", type := "function", name := "get_date_time",
                               argumentsJson := "\x7b\x7d" }],
               toolResults := [{ tool_call_id := "c1", name := "get_date_time",
                                 content := "now" }] } ∧
    storeToolCallsForMessage (fun _ => none)
      { id := "m2", createdTimestamp := 3, content := "new", authorBot := true,
        authorUsername := "arki", authorDisplayName := none, memberDisplayName := none,
        attachments := [], embeds := [], stickers := [], poll := none,
        reactions := [], reference := none, createdAtDisplay := "t" }
      [] [] "other" = none :=
  ⟨(store_get_roundtrip _ _ _ _).1,
   (store_get_roundtrip (fun _ => none)
      { id := "m2", createdTimestamp := 3, content := "new", authorBot := true,
        authorUsername := "arki", authorDisplayName := none, memberDisplayName := none,
        attachments := [], embeds := [], stickers := [], poll := none,
        reactions := [], reference := none, createdAtDisplay := "t" }
      [] []).2 "other" (by decide)⟩

/-- Evicting against the empty window removes every entry. -/
theorem cleanupOldToolCalls_nil (L : Ledger) (k : String) :
    cleanupOldToolCalls L [] k = none := by
  unfold cleanupOldToolCalls
  match h : L k with
  | none => rfl
  | some d => rfl

/-- C10: evicting against an empty retained window deletes every stored
entry, and a failed fetch of the live window yields exactly the empty
window, so one failed fetch wipes the whole ledger. -/
theorem cleanup_empty_window_wipes_ledger (L : Ledger) (e : Unit) :
    (∀ k, cleanupOldToolCalls L [] k = none) ∧
    fetchRecentMessagesResult (Except.error e) = [] ∧
    (∀ k, cleanupOldToolCalls L (fetchRecentMessagesResult (Except.error e)) k = none) :=
  ⟨fun k => cleanupOldToolCalls_nil L k, rfl, fun k => cleanupOldToolCalls_nil L k⟩

/-- Folding block appends equals the join of the mapped blocks. -/
theorem foldl_append_blocks {α β : Type} (f : α → List β) :
    ∀ (l : List α) (init : List β),
      l.foldl (fun acc m => acc ++ f m) init = init ++ (l.map f).flatten := by
  intro l
  induction l with
  | nil => intro init; simp
  | cons x xs ih => intro init; simp [ih, List.append_assoc]

/-- A `filterMap` whose function never drops keeps the length. -/
theorem filterMap_length_of_all_some {α β : Type} (f : α → Option β) :
    ∀ (l : List α), (∀ a ∈ l, (f a).isSome) → (l.filterMap f).length = l.length := by
  intro l
  induction l with
  | nil => intro _; rfl
  | cons x xs ih =>
    intro h
    rw [List.filterMap_cons]
    cases hf : f x with
    | none => exact absurd (h x (List.mem_cons_self x xs)) (by simp [hf])
    | some b =>
      simp only [List.length_cons, ih (fun a ha => h a (List.mem_cons_of_mem x ha))]

/-- Unfolding of `messageBlock` for a surviving, ledger-matched bot
message with recorded tool calls. -/
theorem messageBlock_bot_splice (L : Ledger) (fetch : String → Option String)
    (m : MessageS) (c : String) (entry : ToolCallData)
    (hbot : m.authorBot = true) (hc : botSurvivingContent fetch m = some c)
    (hL : L (generateMessageKey m) = some entry)
    (hnz : entry.toolCalls.length > 0) :
    messageBlock L fetch m =
      [{ role := "assistant", text := none, tool_calls := entry.toolCalls }]
        ++ pairedToolMsgs entry ++ [{ role := "assistant", text := some c }] := by
  unfold messageBlock
  rw [hbot, hc, hL]
  simp [hnz]

/-- When the entry has at least as many recorded requests as results,
every result yields a spliced tool message. -/
theorem pairedToolMsgs_length (entry : ToolCallData)
    (h : entry.toolResults.length ≤ entry.toolCalls.length) :
    (pairedToolMsgs entry).length = entry.toolResults.length := by
  unfold pairedToolMsgs
  rw [filterMap_length_of_all_some]
  · exact List.length_range _
  · intro i hi
    rw [List.mem_range] at hi
    rw [List.getElem?_eq_getElem hi, List.getElem?_eq_getElem (lt_of_lt_of_le hi h)]
    rfl

/-- Every spliced tool message carries the id of a recorded request,
and when the request ids are distinct that id matches exactly one
request. -/
theorem pairedToolMsgs_ids (entry : ToolCallData)
    (hnodup : (entry.toolCalls.map ToolCall.id).Nodup) :
    ∀ msg ∈ pairedToolMsgs entry, ∃ cid, msg.tool_call_id = some cid ∧
      (entry.toolCalls.map ToolCall.id).count cid = 1 := by
  intro msg hmsg
  unfold pairedToolMsgs at hmsg
  rw [List.mem_filterMap] at hmsg
  obtain ⟨i, _, heq⟩ := hmsg
  cases hr : entry.toolResults[i]? with
  | none => rw [hr] at heq; simp at heq
  | some r =>
    cases hcall : entry.toolCalls[i]? with
    | none => rw [hr, hcall] at heq; simp at heq
    | some tc =>
      rw [hr, hcall] at heq
      simp only [Option.some_inj] at heq
      refine ⟨tc.id, ?_, ?_⟩
      · rw [← heq]
      · exact List.count_eq_one_of_mem hnodup
          (List.mem_map_of_mem ToolCall.id (List.getElem?_mem hcall))

/-- Every spliced tool message has role `tool`. -/
theorem pairedToolMsgs_role (entry : ToolCallData) :
    ∀ msg ∈ pairedToolMsgs entry, msg.role = "tool" := by
  intro msg hmsg
  unfold pairedToolMsgs at hmsg
  rw [List.mem_filterMap] at hmsg
  obtain ⟨i, _, heq⟩ := hmsg
  cases hr : entry.toolResults[i]? with
  | none => rw [hr] at heq; simp at heq
  | some r =>
    cases hcall : entry.toolCalls[i]? with
    | none => rw [hr, hcall] at heq; simp at heq
    | some tc =>
      rw [hr, hcall] at heq
      simp only [Option.some_inj] at heq
      rw [← heq]

/-- Splitting the assembled sequence around one window message. -/
theorem convertToAIMessages_decomp (L : Ledger) (fetch : String → Option String)
    (query : String) (pre post : List MessageS) (m : MessageS) :
    convertToAIMessages L fetch (pre ++ m :: post) query =
      (pre.map (messageBlock L fetch)).flatten ++ messageBlock L fetch m
        ++ ((post.map (messageBlock L fetch)).flatten
            ++ (if strTrim query = "" then []
                else [{ role := "user", text := some (strTrim query) }])) := by
  unfold convertToAIMessages
  rw [foldl_append_blocks]
  simp [List.append_assoc]

/-- C2 (amended): whenever a surviving bot message matches a ledger entry
with at least one recorded request, the assembled output contains, in
immediate succession, the assistant tool-request message (no text, the
entry's `toolCalls`), the spliced tool messages, and the original
assistant text message; tool messages are emitted one per index at which
both a recorded result and a same-index recorded request exist — in
particular one per recorded result whenever the entry has at least as
many requests as results — and when the recorded request ids are
pairwise distinct, every emitted tool message's `tool_call_id` matches
exactly one request of the immediately preceding tool-request message. -/
theorem assembler_splice_order (L : Ledger) (fetch : String → Option String)
    (query : String) (pre post : List MessageS) (m : MessageS) (c : String)
    (entry : ToolCallData)
    (hbot : m.authorBot = true)
    (hc : botSurvivingContent fetch m = some c)
    (hL : getToolCallsForMessage L m = some entry)
    (hnz : entry.toolCalls.length > 0)
    (hlen : entry.toolResults.length ≤ entry.toolCalls.length)
    (hnodup : (entry.toolCalls.map ToolCall.id).Nodup) :
    ∃ A B,
      convertToAIMessages L fetch (pre ++ m :: post) query =
        A ++ ([{ role := "assistant", text := none, tool_calls := entry.toolCalls }]
          ++ pairedToolMsgs entry
          ++ [{ role := "assistant", text := some c }]) ++ B ∧
      (pairedToolMsgs entry).length = entry.toolResults.length ∧
      (∀ msg ∈ pairedToolMsgs entry, msg.role = "tool" ∧ ∃ cid,
        msg.tool_call_id = some cid ∧
          (entry.toolCalls.map ToolCall.id).count cid = 1) := by
  have hL' : L (generateMessageKey m) = some entry := hL
  refine ⟨(pre.map (messageBlock L fetch)).flatten,
    (post.map (messageBlock L fetch)).flatten
      ++ (if strTrim query = "" then []
          else [{ role := "user", text := some (strTrim query) }]), ?_,
    pairedToolMsgs_length entry hlen, ?_⟩
  · rw [convertToAIMessages_decomp,
      messageBlock_bot_splice L fetch m c entry hbot hc hL' hnz]
  · intro msg hmsg
    exact ⟨(pairedToolMsgs_role entry msg hmsg),
      pairedToolMsgs_ids entry hnodup msg hmsg⟩

/-- Counterexample for C2 as stated: a ledger entry with one recorded
request but two recorded results produces a single spliced tool message,
not one per recorded result. -/
theorem assembler_splice_counterexample :
    getToolCallsForMessage cexC2Ledger cexC2Message = some cexC2Entry ∧
    cexC2Entry.toolResults.length = 2 ∧
    (convertToAIMessages cexC2Ledger (fun _ => none) [cexC2Message] "").countP
        (fun msg => msg.role == "tool") = 1 := by
  decide

/-- Witness for the amended C2 at a concrete window. -/
theorem assembler_splice_order_witness :
    ∃ A B,
      convertToAIMessages witC2Ledger (fun _ => none) [cexC2Message] "" =
        A ++ ([{ role := "assistant", text := none,
                 tool_calls := witC2Entry.toolCalls }]
          ++ pairedToolMsgs witC2Entry
          ++ [{ role := "assistant", text := some "done" }]) ++ B ∧
      (pairedToolMsgs witC2Entry).length = witC2Entry.toolResults.length ∧
      (∀ msg ∈ pairedToolMsgs witC2Entry, msg.role = "tool" ∧ ∃ cid,
        msg.tool_call_id = some cid ∧
          (witC2Entry.toolCalls.map ToolCall.id).count cid = 1) := by
  exact assembler_splice_order witC2Ledger (fun _ => none) "" [] [] cexC2Message
    "done" witC2Entry (by decide) (by decide) (by decide) (by decide)
    (by decide) (by decide)

/-- C9 (amended): an attachment with an `image/` content type whose URL
ends in `.png`, whose lowercased URL contains none of the sniffed
`.jpg`/`.jpeg`/`.gif`/`.webp` markers, and whose download succeeds,
assembles to a native image segment whose data-URL source is tagged
`image/png`; and every attachment whose declared content type begins
with `image/` assembles to a native image segment (never a text
fallback), whatever its URL extension or download outcome. -/
theorem attachment_image_segment (fetch : String → Option String)
    (att : AttachmentS) (ct b : String)
    (hct : jsStr att.contentType = some ct)
    (himg : strStartsWith ct "image/" = true)
    (_hpng : strEndsWith att.url ".png" = true)
    (hfetch : fetch att.url = some b)
    (h1 : strContains (strToLower att.url) ".jpg" = false)
    (h2 : strContains (strToLower att.url) ".jpeg" = false)
    (h3 : strContains (strToLower att.url) ".gif" = false)
    (h4 : strContains (strToLower att.url) ".webp" = false) :
    convertAttachmentToContentPart fetch att =
      MessageContentPart.imageUrl ("data:image/png;base64," ++ b) "auto" ∧
    (∀ (fetch' : String → Option String) (att' : AttachmentS) (ct' : String),
      jsStr att'.contentType = some ct' → strStartsWith ct' "image/" = true →
      ∃ u, convertAttachmentToContentPart fetch' att' =
        MessageContentPart.imageUrl u "auto") := by
  constructor
  · unfold convertAttachmentToContentPart
    rw [hct]
    simp only [himg, if_true]
    unfold convertImageToBase64 mimeFromUrl
    rw [hfetch]
    simp [h1, h2, h3, h4]
  · intro fetch' att' ct' hct' himg'
    unfold convertAttachmentToContentPart
    rw [hct']
    simp only [himg', if_true]
    exact ⟨convertImageToBase64 fetch' att'.url, rfl⟩

/-- Counterexample for C9 as stated: a URL that ends in `.png` but
contains `.jpg` as a substring is sniffed as JPEG, so the native image
segment's source is not PNG-tagged. -/
theorem attachment_png_counterexample :
    strEndsWith "https://e.com/a.jpg/b.png" ".png" = true ∧
    convertAttachmentToContentPart (fun _ => some "QUJD")
      { name := "pic", size := 0, contentType := some "image/png",
        description := none, url := "https://e.com/a.jpg/b.png",
        width := none, height := none } =
      MessageContentPart.imageUrl "data:image/jpeg;base64,QUJD" "auto" ∧
    strStartsWith "data:image/jpeg;base64,QUJD" "data:image/png" = false := by
  decide

/-- Witness for the amended C9 at a concrete attachment. -/
theorem attachment_image_segment_witness :
    convertAttachmentToContentPart (fun _ => some "QUJD")
      { name := "pic", size := 0, contentType := some "image/png",
        description := none, url := "https://cdn.example/img.png",
        width := none, height := none } =
      MessageContentPart.imageUrl ("data:image/png;base64," ++ "QUJD") "auto" ∧
    (∀ (fetch' : String → Option String) (att' : AttachmentS) (ct' : String),
      jsStr att'.contentType = some ct' → strStartsWith ct' "image/" = true →
      ∃ u, convertAttachmentToContentPart fetch' att' =
        MessageContentPart.imageUrl u "auto") := by
  exact attachment_image_segment (fun _ => some "QUJD")
    { name := "pic", size := 0, contentType := some "image/png",
      description := none, url := "https://cdn.example/img.png",
      width := none, height := none } "image/png" "QUJD"
    (by decide) (by decide) (by decide) (by decide)
    (by decide) (by decide) (by decide) (by decide)

/-- Characterization of a continuing round. -/
theorem loopStep_inr_spec (env : AgentEnv) (task : String) (maxIter : Nat)
    (s s' : LoopState) (h : loopStep env task maxIter s = Sum.inr s') :
    ∃ resp, env.client (prependSystem env.systemPrompt s.messages) = Except.ok resp ∧
      resp.tool_calls.length > 0 ∧ s' = stepSuccState env task maxIter s resp := by
  unfold loopStep at h
  simp only at h
  cases hclient : env.client (prependSystem env.systemPrompt s.messages) with
  | error e => rw [hclient] at h; simp at h
  | ok resp =>
    rw [hclient] at h
    simp only at h
    by_cases hlen : resp.tool_calls.length > 0
    · rw [if_pos hlen] at h
      simp only [Sum.inr.injEq] at h
      exact ⟨resp, rfl, hlen, h.symm⟩
    · rw [if_neg hlen] at h
      simp at h

/-- Characterization of a round that leaves the loop. -/
theorem loopStep_inl_spec (env : AgentEnv) (task : String) (maxIter : Nat)
    (s : LoopState) (out : AgentOutcome)
    (h : loopStep env task maxIter s = Sum.inl out) :
    (∃ e, env.client (prependSystem env.systemPrompt s.messages) = Except.error e ∧
      out = abortOutcome
        { s with
          iterationCount := s.iterationCount + 1,
          callLog := s.callLog ++ [prependSystem env.systemPrompt s.messages] } e) ∨
    (∃ resp, env.client (prependSystem env.systemPrompt s.messages) = Except.ok resp ∧
      resp.tool_calls.length = 0 ∧
      out = afterLoop env maxIter
        { s with
          iterationCount := s.iterationCount + 1,
          callLog := s.callLog ++ [prependSystem env.systemPrompt s.messages],
          finalResponse :=
            (resp.content.getD
              "OpenProject task completed with no specific results.") }) := by
  unfold loopStep at h
  simp only at h
  cases hclient : env.client (prependSystem env.systemPrompt s.messages) with
  | error e =>
    rw [hclient] at h
    simp only [Sum.inl.injEq] at h
    exact Or.inl ⟨e, rfl, h.symm⟩
  | ok resp =>
    rw [hclient] at h
    simp only at h
    by_cases hlen : resp.tool_calls.length > 0
    · rw [if_pos hlen] at h
      simp at h
    · rw [if_neg hlen] at h
      simp only [Sum.inl.injEq] at h
      exact Or.inr ⟨resp, rfl, Nat.eq_zero_of_not_pos hlen, h.symm⟩

/-- The fields of an abort outcome. -/
theorem abortOutcome_spec (s : LoopState) (e : RawError) :
    (abortOutcome s e).text =
      "OpenProject Agent encountered an error: " ++ categorizeError 8192 e ∧
    (abortOutcome s e).abortErr = some e ∧
    (abortOutcome s e).iterations = s.iterationCount ∧
    (abortOutcome s e).callLog = s.callLog ∧
    (abortOutcome s e).toolLog = s.toolLog ∧
    (abortOutcome s e).summaryLog = s.summaryLog :=
  ⟨rfl, rfl, rfl, rfl, rfl, rfl⟩

/-- Full case analysis of the after-loop code. -/
theorem afterLoop_spec (env : AgentEnv) (maxIter : Nat) (s : LoopState) :
    (s.finalResponse = "" ∧ maxIter ≤ s.iterationCount ∧
      ((∃ e, env.client (prependSystem env.systemPrompt s.messages) = Except.error e ∧
          afterLoop env maxIter s = abortOutcome
            { s with callLog :=
                s.callLog ++ [prependSystem env.systemPrompt s.messages] } e) ∨
       (∃ r, env.client (prependSystem env.systemPrompt s.messages) = Except.ok r ∧
          afterLoop env maxIter s =
            { text := agentResultText
                (r.content.getD
                  "OpenProject task completed after maximum iterations.")
                s.iterationCount,
              iterations := s.iterationCount, abortErr := none,
              callLog := s.callLog ++ [prependSystem env.systemPrompt s.messages],
              toolLog := s.toolLog, summaryLog := s.summaryLog,
              finalMessages := s.messages }))) ∨
    (¬(s.finalResponse = "" ∧ maxIter ≤ s.iterationCount) ∧
      afterLoop env maxIter s =
        { text := agentResultText s.finalResponse s.iterationCount,
          iterations := s.iterationCount, abortErr := none,
          callLog := s.callLog, toolLog := s.toolLog,
          summaryLog := s.summaryLog, finalMessages := s.messages }) := by
  by_cases hcase : s.finalResponse = "" ∧ maxIter ≤ s.iterationCount
  · refine Or.inl ⟨hcase.1, hcase.2, ?_⟩
    cases hclient : env.client (prependSystem env.systemPrompt s.messages) with
    | error e =>
      refine Or.inl ⟨e, rfl, ?_⟩
      unfold afterLoop
      rw [if_pos hcase, hclient]
    | ok r =>
      refine Or.inr ⟨r, rfl, ?_⟩
      unfold afterLoop
      rw [if_pos hcase, hclient]
  · refine Or.inr ⟨hcase, ?_⟩
    unfold afterLoop
    rw [if_neg hcase]

/-- The after-loop code never changes the counter. -/
theorem afterLoop_iterations (env : AgentEnv) (maxIter : Nat) (s : LoopState) :
    (afterLoop env maxIter s).iterations = s.iterationCount := by
  rcases afterLoop_spec env maxIter s with
    ⟨_, _, ⟨e, _, heq⟩ | ⟨r, _, heq⟩⟩ | ⟨_, heq⟩ <;> (rw [heq]; try rfl)

/-- The wrapped result text is never empty. -/
theorem agentResultText_ne_empty (fr : String) (n : Nat) :
    agentResultText fr n ≠ "" := by
  intro h
  have hlen := congrArg String.length h
  rw [agentResultText] at hlen
  simp only [String.length_append] at hlen
  have h31 : ("**OpenProject Agent Results**\n\n" : String).length = 31 := rfl
  have h0 : ("" : String).length = 0 := rfl
  rw [h31, h0] at hlen
  omega

/-- The caught-error text is never empty. -/
theorem abortOutcome_text_ne_empty (s : LoopState) (e : RawError) :
    (abortOutcome s e).text ≠ "" := by
  intro h
  have hlen := congrArg String.length h
  rw [abortOutcome] at hlen
  simp only [String.length_append] at hlen
  have h41 : ("OpenProject Agent encountered an error: " : String).length = 40 := rfl
  have h0 : ("" : String).length = 0 := rfl
  rw [h41, h0] at hlen
  omega

/-- The after-loop text is never empty. -/
theorem afterLoop_text_ne_empty (env : AgentEnv) (maxIter : Nat) (s : LoopState) :
    (afterLoop env maxIter s).text ≠ "" := by
  rcases afterLoop_spec env maxIter s with
    ⟨_, _, ⟨e, _, heq⟩ | ⟨r, _, heq⟩⟩ | ⟨_, heq⟩ <;> (rw [heq]; try rfl)
  · exact abortOutcome_text_ne_empty _ _
  · exact agentResultText_ne_empty _ _
  · exact agentResultText_ne_empty _ _

/-- The loop's final counter is bounded by its start plus the fuel. -/
theorem loopGo_iterations_le (env : AgentEnv) (task : String) (maxIter : Nat) :
    ∀ fuel s, (loopGo env task maxIter fuel s).iterations ≤
      s.iterationCount + fuel := by
  intro fuel
  induction fuel with
  | zero =>
    intro s
    simp only [loopGo]
    rw [afterLoop_iterations]
    omega
  | succ fuel ih =>
    intro s
    simp only [loopGo]
    by_cases hcond : loopCond maxIter s = true
    · rw [if_pos hcond]
      cases hstep : loopStep env task maxIter s with
      | inl out =>
        rcases loopStep_inl_spec _ _ _ _ _ hstep with ⟨e, _, heq⟩ | ⟨r, _, _, heq⟩
        · rw [heq]
          show s.iterationCount + 1 ≤ s.iterationCount + (fuel + 1)
          omega
        · rw [heq, afterLoop_iterations]
          show s.iterationCount + 1 ≤ s.iterationCount + (fuel + 1)
          omega
      | inr s' =>
        rcases loopStep_inr_spec _ _ _ _ _ hstep with ⟨resp, _, _, hs'⟩
        have hcount : s'.iterationCount = s.iterationCount + 1 := by rw [hs']; rfl
        have hb := ih s'
        show (loopGo env task maxIter fuel s').iterations ≤
          s.iterationCount + (fuel + 1)
        omega
    · rw [if_neg hcond]
      rw [afterLoop_iterations]
      omega

/-- The loop's text is never empty. -/
theorem loopGo_text_ne_empty (env : AgentEnv) (task : String) (maxIter : Nat) :
    ∀ fuel s, (loopGo env task maxIter fuel s).text ≠ "" := by
  intro fuel
  induction fuel with
  | zero =>
    intro s
    simp only [loopGo]
    exact afterLoop_text_ne_empty _ _ _
  | succ fuel ih =>
    intro s
    simp only [loopGo]
    by_cases hcond : loopCond maxIter s = true
    · rw [if_pos hcond]
      cases hstep : loopStep env task maxIter s with
      | inl out =>
        rcases loopStep_inl_spec _ _ _ _ _ hstep with ⟨e, _, heq⟩ | ⟨r, _, _, heq⟩
        · rw [heq]
          exact abortOutcome_text_ne_empty _ _
        · rw [heq]
          exact afterLoop_text_ne_empty _ _ _
      | inr s' => exact ih s'
    · rw [if_neg hcond]
      exact afterLoop_text_ne_empty _ _ _

/-- Once the counter reaches the budget plus two, the guard fails. -/
theorem loopCond_false_of_ge (maxIter : Nat) (s : LoopState)
    (h : maxIter + 2 ≤ s.iterationCount) : loopCond maxIter s = false := by
  unfold loopCond
  have h1 : ¬ s.iterationCount < maxIter := by omega
  have h2 : ¬ s.iterationCount < maxIter + 2 := by omega
  simp [h1, h2]

/-- Enough fuel makes extra fuel irrelevant: with at least
`maxIter + 2 - iterationCount` rounds of fuel the fuel never runs out
before the guard fails, so `loopGo` computes the source's unbounded
`while`. -/
theorem loopGo_fuel_irrelevant (env : AgentEnv) (task : String) (maxIter : Nat) :
    ∀ fuel s, maxIter + 2 ≤ s.iterationCount + fuel →
      loopGo env task maxIter (fuel + 1) s = loopGo env task maxIter fuel s := by
  intro fuel
  induction fuel with
  | zero =>
    intro s h
    have hc := loopCond_false_of_ge maxIter s (by omega)
    simp only [loopGo, hc]
    simp
  | succ fuel ih =>
    intro s h
    by_cases hcond : loopCond maxIter s = true
    · simp only [loopGo, if_pos hcond]
      cases hstep : loopStep env task maxIter s with
      | inl out => rfl
      | inr s' =>
        rcases loopStep_inr_spec _ _ _ _ _ hstep with ⟨resp, _, _, hs'⟩
        have hcount : s'.iterationCount = s.iterationCount + 1 := by rw [hs']; rfl
        exact ih s' (by omega)
    · simp only [loopGo, if_neg hcond]

/-- In an aborted run the failing client call is the last call ever made,
every earlier call of the run succeeded, and the returned text is the
caught categorized message. -/
theorem loopGo_abort_spec (env : AgentEnv) (task : String) (maxIter : Nat) :
    ∀ fuel s e, (loopGo env task maxIter fuel s).abortErr = some e →
      (loopGo env task maxIter fuel s).text =
        "OpenProject Agent encountered an error: " ++ categorizeError 8192 e ∧
      ∃ calls ms,
        (loopGo env task maxIter fuel s).callLog = s.callLog ++ calls ++ [ms] ∧
        env.client ms = Except.error e ∧
        (∀ m ∈ calls, ∃ r, env.client m = Except.ok r) := by
  have hafter : ∀ s e, (afterLoop env maxIter s).abortErr = some e →
      (afterLoop env maxIter s).text =
        "OpenProject Agent encountered an error: " ++ categorizeError 8192 e ∧
      ∃ calls ms, (afterLoop env maxIter s).callLog = s.callLog ++ calls ++ [ms] ∧
        env.client ms = Except.error e ∧
        (∀ m ∈ calls, ∃ r, env.client m = Except.ok r) := by
    intro s e h
    rcases afterLoop_spec env maxIter s with
      ⟨_, _, ⟨e', hcl, heq⟩ | ⟨r, hcl, heq⟩⟩ | ⟨_, heq⟩
    · rw [heq] at h ⊢
      have he : e' = e := by
        simpa [abortOutcome] using h
      subst he
      exact ⟨rfl, [], prependSystem env.systemPrompt s.messages, by simp [abortOutcome], hcl,
        by intro m hm; simp at hm⟩
    · rw [heq] at h
      simp at h
    · rw [heq] at h
      simp at h
  intro fuel
  induction fuel with
  | zero =>
    intro s e h
    exact hafter s e h
  | succ fuel ih =>
    intro s e h
    by_cases hcond : loopCond maxIter s = true
    · simp only [loopGo, if_pos hcond] at h ⊢
      cases hstep : loopStep env task maxIter s with
      | inl out =>
        rw [hstep] at h
        simp only [] at h ⊢
        rcases loopStep_inl_spec _ _ _ _ _ hstep with ⟨e', hcl, heq⟩ | ⟨r, hcl, hlen, heq⟩
        · rw [heq] at h ⊢
          have he : e' = e := by
            simpa [abortOutcome] using h
          subst he
          exact ⟨rfl, [], prependSystem env.systemPrompt s.messages,
            by simp [abortOutcome], hcl,
            by intro m hm; simp at hm⟩
        · rw [heq] at h ⊢
          obtain ⟨htext, calls, ms, hlog, herr, hok⟩ := hafter _ e h
          refine ⟨htext, [prependSystem env.systemPrompt s.messages] ++ calls, ms, ?_, herr, ?_⟩
          · rw [hlog]
            simp
          · intro m hm
            rcases List.mem_append.mp hm with hm1 | hm2
            · simp at hm1
              rw [hm1]
              exact ⟨r, hcl⟩
            · exact hok m hm2
      | inr s' =>
        rw [hstep] at h
        simp only [] at h ⊢
        rcases loopStep_inr_spec _ _ _ _ _ hstep with ⟨resp, hcl, _, hs'⟩
        obtain ⟨htext, calls, ms, hlog, herr, hok⟩ := ih s' e h
        have hlog' : s'.callLog =
            s.callLog ++ [prependSystem env.systemPrompt s.messages] := by
          rw [hs']; rfl
        refine ⟨htext, [prependSystem env.systemPrompt s.messages] ++ calls, ms, ?_, herr, ?_⟩
        · rw [hlog, hlog']
          simp
        · intro m hm
          rcases List.mem_append.mp hm with hm1 | hm2
          · simp at hm1
            rw [hm1]
            exact ⟨resp, hcl⟩
          · exact hok m hm2
    · simp only [loopGo, if_neg hcond] at h ⊢
      exact hafter s e h

/-- In a non-aborted run every client call made succeeded. -/
theorem loopGo_ok_spec (env : AgentEnv) (task : String) (maxIter : Nat) :
    ∀ fuel s, (loopGo env task maxIter fuel s).abortErr = none →
      ∃ calls, (loopGo env task maxIter fuel s).callLog = s.callLog ++ calls ∧
        (∀ m ∈ calls, ∃ r, env.client m = Except.ok r) := by
  have hafter : ∀ s, (afterLoop env maxIter s).abortErr = none →
      ∃ calls, (afterLoop env maxIter s).callLog = s.callLog ++ calls ∧
        (∀ m ∈ calls, ∃ r, env.client m = Except.ok r) := by
    intro s h
    rcases afterLoop_spec env maxIter s with
      ⟨_, _, ⟨e', hcl, heq⟩ | ⟨r, hcl, heq⟩⟩ | ⟨_, heq⟩
    · rw [heq] at h
      simp [abortOutcome] at h
    · rw [heq]
      refine ⟨[prependSystem env.systemPrompt s.messages], rfl, ?_⟩
      intro m hm
      simp at hm
      rw [hm]
      exact ⟨r, hcl⟩
    · rw [heq]
      exact ⟨[], by simp, by intro m hm; simp at hm⟩
  intro fuel
  induction fuel with
  | zero =>
    intro s h
    exact hafter s h
  | succ fuel ih =>
    intro s h
    by_cases hcond : loopCond maxIter s = true
    · simp only [loopGo, if_pos hcond] at h ⊢
      cases hstep : loopStep env task maxIter s with
      | inl out =>
        rw [hstep] at h
        simp only [] at h ⊢
        rcases loopStep_inl_spec _ _ _ _ _ hstep with
          ⟨e', hcl, heq⟩ | ⟨r, hcl, hlen, heq⟩
        · rw [heq] at h
          simp [abortOutcome] at h
        · rw [heq] at h ⊢
          obtain ⟨calls, hlog, hok⟩ := hafter _ h
          refine ⟨[prependSystem env.systemPrompt s.messages] ++ calls, ?_, ?_⟩
          · rw [hlog]
            simp
          · intro m hm
            rcases List.mem_append.mp hm with hm1 | hm2
            · simp at hm1
              rw [hm1]
              exact ⟨r, hcl⟩
            · exact hok m hm2
      | inr s' =>
        rw [hstep] at h
        simp only [] at h ⊢
        rcases loopStep_inr_spec _ _ _ _ _ hstep with ⟨resp, hcl, _, hs'⟩
        obtain ⟨calls, hlog, hok⟩ := ih s' h
        have hlog' : s'.callLog =
            s.callLog ++ [prependSystem env.systemPrompt s.messages] := by
          rw [hs']; rfl
        refine ⟨[prependSystem env.systemPrompt s.messages] ++ calls, ?_, ?_⟩
        · rw [hlog, hlog']
          simp
        · intro m hm
          rcases List.mem_append.mp hm with hm1 | hm2
          · simp at hm1
            rw [hm1]
            exact ⟨resp, hcl⟩
          · exact hok m hm2
    · simp only [loopGo, if_neg hcond] at h ⊢
      exact hafter s h

/-- C3: with a client that always requests at least one tool call, a
nested-agent run with budget N terminates with its iteration counter at
most N + 2, never aborts, and the text returned by the tool's execute is
non-empty. -/
theorem agent_budget_termination (env : AgentEnv) (task : String)
    (context : Option String) (maxIter : Nat)
    (hok : ∀ ms, ∃ r, env.client ms = Except.ok r ∧ r.tool_calls.length > 0) :
    (openProjectAgentRun env task context maxIter).iterations ≤ maxIter + 2 ∧
    (openProjectAgentRun env task context maxIter).abortErr = none ∧
    openProjectAgentExecute env task context maxIter ≠ "" := by
  refine ⟨?_, ?_, ?_⟩
  · have hb := loopGo_iterations_le env task maxIter (maxIter + 2)
      (initialLoopState task context)
    simpa [openProjectAgentRun, initialLoopState] using hb
  · cases habort : (openProjectAgentRun env task context maxIter).abortErr with
    | none => rfl
    | some e =>
      obtain ⟨_, calls, ms, _, herr, _⟩ := loopGo_abort_spec env task maxIter
        (maxIter + 2) (initialLoopState task context) e habort
      obtain ⟨r, hr, _⟩ := hok ms
      rw [hr] at herr
      exact absurd herr (by simp)
  · exact loopGo_text_ne_empty env task maxIter _ _

/-- Witness for C3 at a concrete always-tool-calling client. -/
theorem agent_budget_termination_witness :
    (openProjectAgentRun witC3Env "audit the projects" none 1).iterations ≤ 1 + 2 ∧
    (openProjectAgentRun witC3Env "audit the projects" none 1).abortErr = none ∧
    openProjectAgentExecute witC3Env "audit the projects" none 1 ≠ "" := by
  exact agent_budget_termination witC3Env "audit the projects" none 1
    (fun ms => ⟨_, rfl, by decide⟩)

/-- C8: a client failure aborts the run — the failing call is the last
call ever made, all earlier calls succeeded, and the caller-visible text
is built from the categorized failure; runs without an abort saw only
successful client calls; categorization maps 429, 401 and 5xx statuses
to their fixed user-facing sentences. -/
theorem client_failure_aborts_loop (env : AgentEnv) (task : String)
    (context : Option String) (maxIter : Nat) :
    (∀ e, (openProjectAgentRun env task context maxIter).abortErr = some e →
      openProjectAgentExecute env task context maxIter =
        "OpenProject Agent encountered an error: " ++ categorizeError 8192 e ∧
      ∃ calls ms,
        (openProjectAgentRun env task context maxIter).callLog = calls ++ [ms] ∧
        env.client ms = Except.error e ∧
        (∀ m ∈ calls, ∃ r, env.client m = Except.ok r)) ∧
    ((openProjectAgentRun env task context maxIter).abortErr = none →
      ∀ m ∈ (openProjectAgentRun env task context maxIter).callLog,
        ∃ r, env.client m = Except.ok r) ∧
    (∀ (mt : Nat) (e : RawError), e.status = some 429 →
      categorizeError mt e =
        "AI service rate limit exceeded. Please try again later.") ∧
    (∀ (mt : Nat) (e : RawError), e.status = some 401 →
      categorizeError mt e =
        "AI service authentication failed. Please check your API key.") ∧
    (∀ (mt : Nat) (e : RawError) (st : Nat), e.status = some st → 500 ≤ st →
      categorizeError mt e =
        "AI service is temporarily unavailable. Please try again later.") := by
  refine ⟨?_, ?_, ?_, ?_, ?_⟩
  · intro e habort
    obtain ⟨htext, calls, ms, hlog, herr, hok⟩ := loopGo_abort_spec env task maxIter
      (maxIter + 2) (initialLoopState task context) e habort
    refine ⟨htext, calls, ms, ?_, herr, hok⟩
    unfold openProjectAgentRun
    rw [hlog]
    simp [initialLoopState]
  · intro hnone m hm
    obtain ⟨calls, hlog, hok⟩ := loopGo_ok_spec env task maxIter
      (maxIter + 2) (initialLoopState task context) hnone
    unfold openProjectAgentRun at hm
    rw [hlog] at hm
    simp [initialLoopState] at hm
    exact hok m hm
  · intro mt e h
    unfold categorizeError
    rw [h]
    simp
  · intro mt e h
    unfold categorizeError
    rw [h]
    simp
  · intro mt e st h hst
    unfold categorizeError
    rw [h]
    have h402 : ¬ ((some st : Option Nat) = some 402) := by
      simp
      omega
    have h429 : ¬ ((some st : Option Nat) = some 429) := by
      simp
      omega
    have h401 : ¬ ((some st : Option Nat) = some 401) := by
      simp
      omega
    rw [if_neg h402, if_neg h429, if_neg h401, if_pos]
    simpa using hst

/-- Witness for C8 at a concrete always-failing client. -/
theorem client_failure_aborts_loop_witness :
    openProjectAgentExecute witC8Env "t" none 1 =
      "OpenProject Agent encountered an error: " ++ categorizeError 8192
        { status := some 429, msg := "rate", remainingCredits := none } ∧
    ∃ calls ms,
      (openProjectAgentRun witC8Env "t" none 1).callLog = calls ++ [ms] ∧
      witC8Env.client ms = Except.error
        { status := some 429, msg := "rate", remainingCredits := none } ∧
      (∀ m ∈ calls, ∃ r, witC8Env.client m = Except.ok r) := by
  exact (client_failure_aborts_loop witC8Env "t" none 1).1
    { status := some 429, msg := "rate", remainingCredits := none } (by decide)

/-- A failed guard means the counter reached the budget. -/
theorem loopCond_false_le (maxIter : Nat) (s : LoopState)
    (h : loopCond maxIter s = false) : maxIter ≤ s.iterationCount := by
  unfold loopCond at h
  simp only [Bool.or_eq_false_iff, decide_eq_false_iff_not] at h
  omega

/-- Every result message produced by the per-invocation try/catch
carries the invocation's id. -/
theorem runToolCall_id (env : AgentEnv) (tc : ToolCall) :
    (runToolCall env tc).tool_call_id = some tc.id := by
  unfold runToolCall
  cases env.parseJson tc.argumentsJson with
  | error e => rfl
  | ok args =>
    simp only []
    cases opExecuteTool env tc.name args with
    | error e => rfl
    | ok s => rfl

/-- Every result message produced by the per-invocation try/catch has
role `tool`. -/
theorem runToolCall_role (env : AgentEnv) (tc : ToolCall) :
    (runToolCall env tc).role = "tool" := by
  unfold runToolCall
  cases env.parseJson tc.argumentsJson with
  | error e => rfl
  | ok args =>
    simp only []
    cases opExecuteTool env tc.name args with
    | error e => rfl
    | ok s => rfl

/-- Every tool-executing round is followed by at least one further
completion request. -/
theorem loopGo_calls_ge_tools (env : AgentEnv) (task : String) (maxIter : Nat) :
    ∀ fuel s, s.finalResponse = "" → maxIter ≤ s.iterationCount + fuel →
      (loopGo env task maxIter fuel s).callLog.length + s.toolLog.length ≥
        (loopGo env task maxIter fuel s).toolLog.length + s.callLog.length + 1 := by
  have hafter1 : ∀ s, s.finalResponse = "" → maxIter ≤ s.iterationCount →
      (afterLoop env maxIter s).callLog.length = s.callLog.length + 1 ∧
      (afterLoop env maxIter s).toolLog = s.toolLog := by
    intro s hfr hit
    rcases afterLoop_spec env maxIter s with
      ⟨_, _, ⟨e, _, heq⟩ | ⟨r, _, heq⟩⟩ | ⟨hneg, heq⟩
    · rw [heq]
      exact ⟨by simp [abortOutcome], rfl⟩
    · rw [heq]
      exact ⟨by simp, rfl⟩
    · exact absurd ⟨hfr, hit⟩ hneg
  have hafter2 : ∀ s, (afterLoop env maxIter s).callLog.length ≥ s.callLog.length ∧
      (afterLoop env maxIter s).toolLog = s.toolLog := by
    intro s
    rcases afterLoop_spec env maxIter s with
      ⟨_, _, ⟨e, _, heq⟩ | ⟨r, _, heq⟩⟩ | ⟨_, heq⟩
    · rw [heq]
      exact ⟨by simp [abortOutcome], rfl⟩
    · rw [heq]
      exact ⟨by simp, rfl⟩
    · rw [heq]
      exact ⟨le_refl _, rfl⟩
  intro fuel
  induction fuel with
  | zero =>
    intro s hfr hit
    simp only [loopGo]
    obtain ⟨h1, h2⟩ := hafter1 s hfr (by omega)
    rw [h1, h2]
    omega
  | succ fuel ih =>
    intro s hfr hit
    by_cases hcond : loopCond maxIter s = true
    · simp only [loopGo, if_pos hcond]
      cases hstep : loopStep env task maxIter s with
      | inl out =>
        simp only []
        rcases loopStep_inl_spec _ _ _ _ _ hstep with
          ⟨e, _, heq⟩ | ⟨r, _, _, heq⟩
        · rw [heq]
          simp [abortOutcome]
          omega
        · rw [heq]
          obtain ⟨h1, h2⟩ := hafter2
            { s with
              iterationCount := s.iterationCount + 1,
              callLog := s.callLog ++ [prependSystem env.systemPrompt s.messages],
              finalResponse :=
                (r.content.getD
                  "OpenProject task completed with no specific results.") }
          simp only [List.length_append, List.length_cons, List.length_nil] at h1
          rw [h2]
          simp only [List.length_append, List.length_cons, List.length_nil]
          omega
      | inr s' =>
        simp only []
        rcases loopStep_inr_spec _ _ _ _ _ hstep with ⟨resp, _, _, hs'⟩
        have hfr' : s'.finalResponse = "" := by rw [hs']; exact hfr
        have hcount : s'.iterationCount = s.iterationCount + 1 := by rw [hs']; rfl
        have hcall : s'.callLog.length = s.callLog.length + 1 := by
          rw [hs']
          simp [stepSuccState]
        have htool : s'.toolLog.length = s.toolLog.length + 1 := by
          rw [hs']
          simp [stepSuccState]
        have hb := ih s' hfr' (by omega)
        show (loopGo env task maxIter fuel s').callLog.length + s.toolLog.length ≥
          (loopGo env task maxIter fuel s').toolLog.length + s.callLog.length + 1
        omega
    · simp only [loopGo, if_neg hcond]
      obtain ⟨h1, h2⟩ := hafter1 s hfr (loopCond_false_le maxIter s
        (Bool.not_eq_true _ ▸ Bool.of_not_eq_true hcond))
      rw [h1, h2]
      omega

/-- C5: for every `function`-typed requested invocation, a missing tool
name, a `JSON.parse` failure of its arguments, or a throwing execute is
recorded as an error-text tool result carrying the invocation's id; the
produced result list carries exactly the requested ids in order; tool
execution never aborts a run (only a client failure, reported in the
call log, does); and every tool-executing round is followed by a further
completion request. -/
theorem tool_errors_recovered_locally :
    (∀ (env : AgentEnv) (tc : ToolCall) (args : String),
      openProjectToolNames.contains tc.name = false →
      env.parseJson tc.argumentsJson = Except.ok args →
      runToolCall env tc =
        { role := "tool",
          text := some ("Error: Failed to execute " ++ tc.name ++
            ": OpenProject tool not found: " ++ tc.name),
          tool_call_id := some tc.id }) ∧
    (∀ (env : AgentEnv) (tc : ToolCall) (e : String),
      env.parseJson tc.argumentsJson = Except.error e →
      runToolCall env tc =
        { role := "tool",
          text := some ("Error: Failed to execute " ++ tc.name ++ ": " ++ e),
          tool_call_id := some tc.id }) ∧
    (∀ (env : AgentEnv) (tc : ToolCall) (args e : String),
      env.parseJson tc.argumentsJson = Except.ok args →
      openProjectToolNames.contains tc.name = true →
      env.execTool tc.name args = Except.error e →
      runToolCall env tc =
        { role := "tool",
          text := some ("Error: Failed to execute " ++ tc.name ++ ": " ++ e),
          tool_call_id := some tc.id }) ∧
    (∀ (env : AgentEnv) (calls : List ToolCall),
      (execToolCalls env calls).map ChatMsg.tool_call_id =
        (calls.filter (fun tc => tc.type == "function")).map
          (fun tc => some tc.id)) ∧
    (∀ (env : AgentEnv) (task : String) (context : Option String) (maxIter : Nat),
      (∀ e, (openProjectAgentRun env task context maxIter).abortErr = some e →
        ∃ ms ∈ (openProjectAgentRun env task context maxIter).callLog,
          env.client ms = Except.error e) ∧
      (openProjectAgentRun env task context maxIter).callLog.length ≥
        (openProjectAgentRun env task context maxIter).toolLog.length + 1) := by
  refine ⟨?_, ?_, ?_, ?_, ?_⟩
  · intro env tc args hmiss hparse
    unfold runToolCall
    rw [hparse]
    simp only []
    unfold opExecuteTool
    rw [hmiss]
    simp only [String.append_assoc]
    rfl
  · intro env tc e hparse
    unfold runToolCall
    rw [hparse]
  · intro env tc args e hparse hhit hexec
    unfold runToolCall
    rw [hparse]
    simp only []
    unfold opExecuteTool
    rw [hhit]
    simp only [if_true]
    rw [hexec]
  · intro env calls
    unfold execToolCalls
    rw [List.map_map]
    exact List.map_congr_left (fun tc _ => runToolCall_id env tc)
  · intro env task context maxIter
    constructor
    · intro e habort
      obtain ⟨_, calls, ms, hlog, herr, _⟩ := loopGo_abort_spec env task maxIter
        (maxIter + 2) (initialLoopState task context) e habort
      refine ⟨ms, ?_, herr⟩
      unfold openProjectAgentRun
      rw [hlog]
      simp
    · have hb := loopGo_calls_ge_tools env task maxIter (maxIter + 2)
        (initialLoopState task context) rfl (by omega)
      have h1 : (initialLoopState task context).toolLog.length = 0 := rfl
      have h2 : (initialLoopState task context).callLog.length = 0 := rfl
      unfold openProjectAgentRun
      omega

/-- Witness for C5: a request for an unregistered tool name is recorded
as an error-text result with the invocation's id. -/
theorem tool_errors_recovered_locally_witness :
    runToolCall witC3Env
      { id := "c9", type := "function", name := "nope", argumentsJson := "\x7b\x7d" } =
      { role := "tool",
        text := some ("Error: Failed to execute nope: OpenProject tool not found: nope"),
        tool_call_id := some "c9" } := by
  exact tool_errors_recovered_locally.1 witC3Env
    { id := "c9", type := "function", name := "nope", argumentsJson := "\x7b\x7d" }
    "\x7b\x7d" (by decide) rfl

/-- `range'` starting at 1, one step longer. -/
theorem range'_one_concat (n : Nat) :
    List.range' 1 (n + 1) = List.range' 1 n ++ [n + 1] := by
  rw [List.range'_concat]
  simp [Nat.add_comm]

/-- Without the trigger keywords in the task the heuristic detection
never fires. -/
theorem foundUserIdCheck_false (task : String) (hkw : taskWantsList task = false)
    (calls : List ToolCall) (results : List ChatMsg) :
    foundUserIdCheck task calls results = false := by
  unfold foundUserIdCheck
  simp only [List.any_eq_false]
  intro tc _
  cases hfind : results.find? (fun r => r.tool_call_id == some tc.id) with
  | none => simp [hfind]
  | some r => simp [hfind, hkw]

/-- The after-loop code never changes the ghost tool log. -/
theorem afterLoop_toolLog (env : AgentEnv) (maxIter : Nat) (s : LoopState) :
    (afterLoop env maxIter s).toolLog = s.toolLog := by
  rcases afterLoop_spec env maxIter s with
    ⟨_, _, ⟨e, _, heq⟩ | ⟨r, _, heq⟩⟩ | ⟨_, heq⟩ <;> (rw [heq]; try rfl)

/-- In a keyword-free run with a total client, if the model was still
producing tool requests at the budget ceiling, then: tools executed at
exactly iterations 1..N, the forced-summary user message was pushed
exactly once, at iteration N, and is the last message of the
conversation, the loop performed no further iterations, and exactly one
additional completion request (budget-plus-one calls in total) produced
the returned text. -/
theorem loopGo_nokeyword_spec (env : AgentEnv) (task : String) (maxIter : Nat)
    (hkw : taskWantsList task = false)
    (hok : ∀ ms, ∃ r, env.client ms = Except.ok r) :
    ∀ fuel s,
      s.foundUserIdButNeedsList = false →
      s.finalResponse = "" →
      s.summaryLog = (if s.iterationCount = maxIter ∧ 1 ≤ s.iterationCount
        then [maxIter] else []) →
      (s.iterationCount = maxIter ∧ 1 ≤ s.iterationCount →
        s.messages.getLast? = some { role := "user", text := some summaryPrompt }) →
      s.toolLog.map Prod.fst = List.range' 1 s.iterationCount →
      s.callLog.length = s.iterationCount →
      s.iterationCount ≤ maxIter →
      maxIter ≤ s.iterationCount + fuel →
      maxIter ∈ (loopGo env task maxIter fuel s).toolLog.map Prod.fst →
      (loopGo env task maxIter fuel s).summaryLog = [maxIter] ∧
      (loopGo env task maxIter fuel s).toolLog.map Prod.fst =
        List.range' 1 maxIter ∧
      (loopGo env task maxIter fuel s).iterations = maxIter ∧
      (loopGo env task maxIter fuel s).callLog.length = maxIter + 1 ∧
      (loopGo env task maxIter fuel s).abortErr = none ∧
      (loopGo env task maxIter fuel s).finalMessages.getLast? =
        some { role := "user", text := some summaryPrompt } := by
  have hafter : ∀ s, s.finalResponse = "" →
      s.summaryLog = (if s.iterationCount = maxIter ∧ 1 ≤ s.iterationCount
        then [maxIter] else []) →
      (s.iterationCount = maxIter ∧ 1 ≤ s.iterationCount →
        s.messages.getLast? = some { role := "user", text := some summaryPrompt }) →
      s.toolLog.map Prod.fst = List.range' 1 s.iterationCount →
      s.callLog.length = s.iterationCount →
      s.iterationCount = maxIter →
      maxIter ∈ (afterLoop env maxIter s).toolLog.map Prod.fst →
      (afterLoop env maxIter s).summaryLog = [maxIter] ∧
      (afterLoop env maxIter s).toolLog.map Prod.fst = List.range' 1 maxIter ∧
      (afterLoop env maxIter s).iterations = maxIter ∧
      (afterLoop env maxIter s).callLog.length = maxIter + 1 ∧
      (afterLoop env maxIter s).abortErr = none ∧
      (afterLoop env maxIter s).finalMessages.getLast? =
        some { role := "user", text := some summaryPrompt } := by
    intro s hfr hsum hmsg htool hcall hcount hmem
    rw [afterLoop_toolLog] at hmem
    rw [htool, hcount] at hmem
    have h1 : 1 ≤ maxIter := by
      rcases List.mem_range'_1.mp hmem with ⟨h, _⟩
      omega
    rcases afterLoop_spec env maxIter s with
      ⟨_, _, ⟨e, hcl, heq⟩ | ⟨r, hcl, heq⟩⟩ | ⟨hneg, heq⟩
    · obtain ⟨r, hr⟩ := hok (prependSystem env.systemPrompt s.messages)
      rw [hr] at hcl
      exact absurd hcl (by simp)
    · rw [heq]
      refine ⟨?_, ?_, ?_, ?_, ?_, ?_⟩
      · show s.summaryLog = [maxIter]
        rw [hsum, if_pos ⟨hcount, by omega⟩]
      · show s.toolLog.map Prod.fst = List.range' 1 maxIter
        rw [htool, hcount]
      · exact hcount
      · show (s.callLog ++ [prependSystem env.systemPrompt s.messages]).length =
          maxIter + 1
        simp [hcall, hcount]
      · rfl
      · show s.messages.getLast? = some { role := "user", text := some summaryPrompt }
        exact hmsg ⟨hcount, by omega⟩
    · exact absurd ⟨hfr, le_of_eq hcount.symm⟩ hneg
  intro fuel
  induction fuel with
  | zero =>
    intro s hfound hfr hsum hmsg htool hcall hle hfuel hmem
    simp only [loopGo] at hmem ⊢
    exact hafter s hfr hsum hmsg htool hcall (by omega) hmem
  | succ fuel ih =>
    intro s hfound hfr hsum hmsg htool hcall hle hfuel hmem
    by_cases hcond : loopCond maxIter s = true
    · have hlt : s.iterationCount < maxIter := by
        unfold loopCond at hcond
        rw [hfound] at hcond
        simp at hcond
        exact hcond
      simp only [loopGo, if_pos hcond] at hmem ⊢
      cases hstep : loopStep env task maxIter s with
      | inl out =>
        rw [hstep] at hmem
        simp only [] at hmem ⊢
        rcases loopStep_inl_spec _ _ _ _ _ hstep with
          ⟨e, hcl, heq⟩ | ⟨r, hcl, hlen, heq⟩
        · obtain ⟨r, hr⟩ := hok (prependSystem env.systemPrompt s.messages)
          rw [hr] at hcl
          exact absurd hcl (by simp)
        · rw [heq] at hmem
          rw [afterLoop_toolLog] at hmem
          have hmem2 : maxIter ∈ List.map Prod.fst s.toolLog := hmem
          rw [htool] at hmem2
          exact absurd (List.mem_range'_1.mp hmem2) (by omega)
      | inr s' =>
        rw [hstep] at hmem
        simp only [] at hmem ⊢
        rcases loopStep_inr_spec _ _ _ _ _ hstep with ⟨resp, hcl, hlen, hs'⟩
        have hfound' : s'.foundUserIdButNeedsList = false := by
          rw [hs']
          simp only [stepSuccState]
          rw [hfound, foundUserIdCheck_false task hkw]
          rfl
        have hpush : ((s.iterationCount + 1 == maxIter &&
            !(s.foundUserIdButNeedsList ||
              foundUserIdCheck task resp.tool_calls
                (execToolCalls env resp.tool_calls))) ||
            (s.iterationCount + 1 == maxIter + 2)) =
            (s.iterationCount + 1 == maxIter) := by
          rw [hfound, foundUserIdCheck_false task hkw]
          have h2 : (s.iterationCount + 1 == maxIter + 2) = false := by
            simp
            omega
          rw [h2]
          simp
        have hfr' : s'.finalResponse = "" := by rw [hs']; exact hfr
        have hcount' : s'.iterationCount = s.iterationCount + 1 := by rw [hs']; rfl
        have hsum' : s'.summaryLog = (if s'.iterationCount = maxIter ∧
            1 ≤ s'.iterationCount then [maxIter] else []) := by
          rw [hcount', hs']
          show s.summaryLog ++ _ = _
          rw [hpush, hsum, if_neg (by omega :
            ¬(s.iterationCount = maxIter ∧ 1 ≤ s.iterationCount))]
          by_cases hEq : s.iterationCount + 1 = maxIter
          · have hb2 : (s.iterationCount + 1 == maxIter) = true := by simp [hEq]
            rw [hb2]
            rw [if_pos (rfl : (true = true))]
            rw [hEq]
            rw [if_pos (⟨rfl, by omega⟩ : (maxIter = maxIter ∧ 1 ≤ maxIter))]
            simp
          · have hb2 : (s.iterationCount + 1 == maxIter) = false := by simp [hEq]
            rw [hb2]
            rw [if_neg (by simp : ¬(false = true))]
            rw [if_neg (by
              intro hcon
              exact hEq hcon.1)]
            simp
        have hmsg' : s'.iterationCount = maxIter ∧ 1 ≤ s'.iterationCount →
            s'.messages.getLast? =
              some { role := "user", text := some summaryPrompt } := by
          intro hc
          rw [hcount'] at hc
          rw [hs']
          show (s.messages ++ _ ++ _ ++ _).getLast? = _
          rw [hpush]
          have hb : (s.iterationCount + 1 == maxIter) = true := by
            simp [hc.1]
          rw [hb]
          rw [if_pos (rfl : (true = true))]
          exact List.getLast?_concat _
        have htool' : s'.toolLog.map Prod.fst =
            List.range' 1 s'.iterationCount := by
          rw [hcount', hs']
          show (s.toolLog ++ _).map Prod.fst = _
          rw [List.map_append, htool]
          simp [range'_one_concat]
        have hcall' : s'.callLog.length = s'.iterationCount := by
          rw [hcount', hs']
          show (s.callLog ++ _).length = _
          simp [hcall]
        exact ih s' hfound' hfr' hsum' hmsg' htool' hcall' (by omega) (by omega) hmem
    · have hge : maxIter ≤ s.iterationCount :=
        loopCond_false_le maxIter s (by
          cases htf : loopCond maxIter s
          · rfl
          · exact absurd htf hcond)
      simp only [loopGo, if_neg hcond] at hmem ⊢
      exact hafter s hfr hsum hmsg htool hcall (by omega) hmem

/-- Counterexample for C4 as stated: with budget 1 and a listing-type
task, the counter reaches the ceiling at iteration 1 while the model is
producing tool requests, yet no forced-summary message is appended there
(the heuristic extension fired instead) and two further tool-executing
iterations (2 and 3) run before the summary is pushed at iteration 3. -/
theorem forced_summary_counterexample :
    (openProjectAgentRun cexC4Env "list issues by raj" none 1).toolLog.map
      Prod.fst = [1, 2, 3] ∧
    (openProjectAgentRun cexC4Env "list issues by raj" none 1).summaryLog = [3] ∧
    (openProjectAgentRun cexC4Env "list issues by raj" none 1).iterations = 3 := by
  decide

/-- C4 (amended): when the iteration counter reaches the configured
ceiling while the model is still producing tool requests and the
identifier-resolution extension has not fired (no trigger keyword in the
task), the loop appends the forced-summary user message exactly once, at
the ceiling iteration, as the final conversation message, performs no
further loop iterations or tool executions, and issues exactly one
additional completion request to obtain the returned text; the two extra
iterations exist only on the keyword-triggered extension path. -/
theorem forced_summary_on_budget_exhaustion (env : AgentEnv) (task : String)
    (context : Option String) (maxIter : Nat)
    (hkw : taskWantsList task = false)
    (hok : ∀ ms, ∃ r, env.client ms = Except.ok r)
    (hreach : maxIter ∈
      (openProjectAgentRun env task context maxIter).toolLog.map Prod.fst) :
    (openProjectAgentRun env task context maxIter).summaryLog = [maxIter] ∧
    (openProjectAgentRun env task context maxIter).toolLog.map Prod.fst =
      List.range' 1 maxIter ∧
    (openProjectAgentRun env task context maxIter).iterations = maxIter ∧
    (openProjectAgentRun env task context maxIter).callLog.length = maxIter + 1 ∧
    (openProjectAgentRun env task context maxIter).abortErr = none ∧
    (openProjectAgentRun env task context maxIter).finalMessages.getLast? =
      some { role := "user", text := some summaryPrompt } := by
  exact loopGo_nokeyword_spec env task maxIter hkw hok (maxIter + 2)
    (initialLoopState task context) rfl rfl (by simp [initialLoopState])
    (by intro hc; exact absurd hc.1.symm (by simp [initialLoopState]; omega))
    rfl rfl (by simp [initialLoopState]) (by simp [initialLoopState]) hreach

/-- Witness for the amended C4 at a concrete keyword-free run. -/
theorem forced_summary_on_budget_exhaustion_witness :
    (openProjectAgentRun witC4Env "hello" none 1).summaryLog = [1] ∧
    (openProjectAgentRun witC4Env "hello" none 1).toolLog.map Prod.fst =
      List.range' 1 1 ∧
    (openProjectAgentRun witC4Env "hello" none 1).iterations = 1 ∧
    (openProjectAgentRun witC4Env "hello" none 1).callLog.length = 1 + 1 ∧
    (openProjectAgentRun witC4Env "hello" none 1).abortErr = none ∧
    (openProjectAgentRun witC4Env "hello" none 1).finalMessages.getLast? =
      some { role := "user", text := some summaryPrompt } := by
  exact forced_summary_on_budget_exhaustion witC4Env "hello" none 1
    (by decide) (fun ms => ⟨_, rfl⟩) (by decide)

/-- C6: the nested registry registers exactly the six OpenProject domain
tools and none of the outer registry's tools — in particular not
`openproject_agent` itself; the nested-agent tool's execute returns a
plain string (its type carries no ledger), and a delivered outer turn
writes exactly one ledger entry, under the sent message's key, whose
recorded `toolCalls` are the outer response's calls — nested-internal
invocations never reach the ledger. -/
theorem nested_registry_scoped :
    openProjectToolNames = ["list_projects", "create_work_package",
      "list_work_packages", "assign_user", "search_users", "get_metadata"] ∧
    openProjectToolNames.contains "openproject_agent" = false ∧
    (∀ n ∈ outerToolNames, n ∉ openProjectToolNames) ∧
    (∀ (oenv : OuterEnv) (args : String), ∃ s,
      outerExecuteTool oenv "openproject_agent" args = Except.ok s) ∧
    (∀ (oenv : OuterEnv) (L : Ledger) (sent : MessageS) (calls : List ToolCall)
      (k : String), k ≠ generateMessageKey sent →
        storeToolCallsForMessage L sent calls (processToolCalls oenv calls) k = L k) ∧
    (∀ (oenv : OuterEnv) (L : Ledger) (sent : MessageS) (calls : List ToolCall),
      storeToolCallsForMessage L sent calls (processToolCalls oenv calls)
        (generateMessageKey sent) =
        some { messageId := sent.id, messageContent := sent.content,
               timestamp := sent.createdTimestamp, toolCalls := calls,
               toolResults := processToolCalls oenv calls }) := by
  refine ⟨by decide, by decide, by decide, ?_, ?_, ?_⟩
  · intro oenv args
    refine ⟨openProjectAgentExecute oenv.nestedEnv (oenv.agentArgs args).1
      (oenv.agentArgs args).2.1 (oenv.agentArgs args).2.2, ?_⟩
    unfold outerExecuteTool
    rw [if_neg (by decide), if_pos rfl]
  · intro oenv L sent calls k hk
    unfold storeToolCallsForMessage
    rw [if_neg hk]
  · intro oenv L sent calls
    unfold storeToolCallsForMessage
    rw [if_pos rfl]

/-- Witness for C6: the ledger delta of a concrete outer turn. -/
theorem nested_registry_scoped_witness :
    storeToolCallsForMessage (fun _ => none)
      { id := "m7", createdTimestamp := 2, content := "ok", authorBot := true,
        authorUsername := "arki", authorDisplayName := none,
        memberDisplayName := none, attachments := [], embeds := [],
        stickers := [], poll := none, reactions := [], reference := none,
        createdAtDisplay := "t" }
      [{ id := "c1", type := "function", name := "openproject_agent",
         argumentsJson := "\x7b\x7d" }]
      (processToolCalls
        { parseJson := fun s => Except.ok s,
          dateTimeBehavior := fun _ => Except.ok "now",
          agentArgs := fun _ => ("t", none, 1),
          nestedEnv := witC8Env }
        [{ id := "c1", type := "function", name := "openproject_agent",
           argumentsJson := "\x7b\x7d" }])
      "zzz" = none := by
  exact (nested_registry_scoped.2.2.2.2.1)
    { parseJson := fun s => Except.ok s,
      dateTimeBehavior := fun _ => Except.ok "now",
      agentArgs := fun _ => ("t", none, 1),
      nestedEnv := witC8Env }
    (fun _ => none)
    { id := "m7", createdTimestamp := 2, content := "ok", authorBot := true,
      authorUsername := "arki", authorDisplayName := none,
      memberDisplayName := none, attachments := [], embeds := [],
      stickers := [], poll := none, reactions := [], reference := none,
      createdAtDisplay := "t" }
    [{ id := "c1", type := "function", name := "openproject_agent",
       argumentsJson := "\x7b\x7d" }]
    "zzz" (by decide)
